import Mathlib

/-!
Verification of the Agent Kanban orchestration kernel (Python backend) against
its natural-language specification.  The Python sources under `backend/` are
shallowly embedded: dictionaries become structures, in-place mutation becomes
explicit state passing, ISO timestamps are modeled as naturals where arithmetic
is performed and as raw strings where only compared, and Python strings are
modeled as `List Char`.  Nondeterministic values (random lease/event ids) are
taken as parameters; fire-and-forget side effects (websocket broadcast, push
notifications, logging) are not modeled because no verified property reads
them.
-/

namespace AgentKanban

/-- Python strings are modeled as lists of characters. -/
abbrev Str := List Char

/-- ASCII lowercasing of one character; non-ASCII characters are kept as-is
(`str.lower` of the source only differs on non-ASCII letters, and every place
the code lowercases feeds either the hex-digit filter or keyword containment
over ASCII/CJK text, where non-ASCII case folding is irrelevant). -/
def asciiLower (c : Char) : Char :=
  if 'A' ≤ c ∧ c ≤ 'Z' then Char.ofNat (c.toNat + 32) else c

/-- `text.lower()` -/
def lowerStr (s : Str) : Str := s.map asciiLower

/-- Word characters for the regex `\b` boundary: ASCII `[a-zA-Z0-9_]`.
Python's `re` additionally counts every Unicode alphanumeric as a word
character; this model approximates that by counting every non-ASCII character
as a word constituent (CJK letters, the case the repository's data actually
contains, are classified correctly). -/
def isWordChar (c : Char) : Bool :=
  ('a' ≤ c && c ≤ 'z') || ('A' ≤ c && c ≤ 'Z') || ('0' ≤ c && c ≤ '9') ||
    c == '_' || decide (c.toNat ≥ 128)

/-- The character class `[0-9a-f]` of the commit-hash regex. -/
def isHexChar (c : Char) : Bool :=
  ('0' ≤ c && c ≤ '9') || ('a' ≤ c && c ≤ 'f')

/-- Maximal runs of word characters of a text, with structural fuel (the
input shrinks by at least one character per call, so `length + 1` fuel always
suffices).  A match of `\b[0-9a-f]{7,40}\b` must start and end on a word
boundary, and word boundaries exist only at the edges of such runs, so the
regex matches are exactly the runs that are entirely hex digits with length
between 7 and 40. -/
def wordRunsF : Nat → Str → List Str
  | 0, _ => []
  | _ + 1, [] => []
  | f + 1, c :: cs =>
    if isWordChar c then
      ((c :: cs).takeWhile isWordChar) :: wordRunsF f ((c :: cs).dropWhile isWordChar)
    else
      wordRunsF f cs

def wordRuns (s : Str) : List Str := wordRunsF (s.length + 1) s

/-- The matches of `re.findall(r"\b[0-9a-f]{7,40}\b", t)`, in order. -/
def hexMatches (t : Str) : List Str :=
  (wordRuns t).filter fun r =>
    r.all isHexChar && decide (7 ≤ r.length) && decide (r.length ≤ 40)

/-- Order-preserving first-occurrence deduplication (the `seen` set / `out`
list loop of `_extract_commit_ids`). -/
def dedupFirst (seen : List Str) : List Str → List Str
  | [] => []
  | x :: xs => if x ∈ seen then dedupFirst seen xs else x :: dedupFirst (x :: seen) xs

/-- `WorkerRunner._extract_commit_ids` (worker_runner.py): on empty input
return `[]`; otherwise scan `text.lower()` with `\b[0-9a-f]{7,40}\b`,
deduplicate keeping first occurrences, and truncate to 20 entries. -/
def _extract_commit_ids (text : Str) : List Str :=
  if text = [] then []
  else (dedupFirst [] (hexMatches (lowerStr text))).take 20

/-! ### JSON values and `json.loads`

`_parse_review_json` calls `json.loads` on the contents of a fenced block.
The model below reproduces the acceptance behavior of Python's strict JSON
decoder: RFC-8259 grammar plus the `NaN` / `Infinity` / `-Infinity`
constants, string escapes (including `\uXXXX`, lone surrogates accepted with
an approximated character value), control characters rejected inside strings,
whitespace limited to space/tab/newline/carriage-return, and the whole input
consumed.  Numbers without fraction or exponent are represented by their
integer value with an empty `tok`; other numeric tokens (and the named
constants) keep their raw token in `tok` — no verified property depends on
non-integral numeric values, which avoids floating point. -/

inductive Json where
  | null : Json
  | bool (b : Bool) : Json
  | num (i : Int) (tok : Str) : Json
  | str (s : Str) : Json
  | arr (elems : List Json) : Json
  | obj (fields : List (Str × Json)) : Json

/-- JSON inter-token whitespace (`json.decoder` accepts exactly these). -/
def isJsonWs (c : Char) : Bool :=
  c == ' ' || c == '\t' || c == '\n' || c == '\r'

def skipJsonWs (s : Str) : Str := s.dropWhile isJsonWs

def isDigitChar (c : Char) : Bool := '0' ≤ c && c ≤ '9'

def isHexEsc (c : Char) : Bool :=
  ('0' ≤ c && c ≤ '9') || ('a' ≤ c && c ≤ 'f') || ('A' ≤ c && c ≤ 'F')

def hexEscVal (c : Char) : Nat :=
  if '0' ≤ c && c ≤ '9' then c.toNat - '0'.toNat
  else if 'a' ≤ c && c ≤ 'f' then c.toNat - 'a'.toNat + 10
  else c.toNat - 'A'.toNat + 10

/-- Body of a JSON string after the opening quote: returns the decoded
content and the remainder after the closing quote. -/
def parseStringBody : Nat → Str → Option (Str × Str)
  | 0, _ => none
  | _ + 1, [] => none
  | f + 1, c :: cs =>
    if c = '"' then some ([], cs)
    else if c = '\\' then
      match cs with
      | [] => none
      | e :: cs2 =>
        if e = 'u' then
          match cs2 with
          | h1 :: h2 :: h3 :: h4 :: cs3 =>
            if isHexEsc h1 && isHexEsc h2 && isHexEsc h3 && isHexEsc h4 then
              let v := ((hexEscVal h1 * 16 + hexEscVal h2) * 16 + hexEscVal h3) * 16 + hexEscVal h4
              (parseStringBody f cs3).map fun (s, r) => (Char.ofNat v :: s, r)
            else none
          | _ => none
        else
          let dec : Option Char :=
            if e = '"' then some '"'
            else if e = '\\' then some '\\'
            else if e = '/' then some '/'
            else if e = 'b' then some (Char.ofNat 8)
            else if e = 'f' then some (Char.ofNat 12)
            else if e = 'n' then some '\n'
            else if e = 'r' then some '\r'
            else if e = 't' then some '\t'
            else none
          match dec with
          | none => none
          | some d => (parseStringBody f cs2).map fun (s, r) => (d :: s, r)
    else if c.toNat < 32 then none
    else (parseStringBody f cs).map fun (s, r) => (c :: s, r)

/-- Digits of a natural number, in order (fuel-driven so that kernel
reduction works). -/
def natDigits (fuel n : Nat) : Str :=
  match fuel with
  | 0 => []
  | f + 1 =>
    if n < 10 then [Char.ofNat (n + 48)]
    else natDigits f (n / 10) ++ [Char.ofNat (n % 10 + 48)]

def natToStr (n : Nat) : Str := natDigits (n + 1) n

def intToStr (i : Int) : Str :=
  if i < 0 then '-' :: natToStr i.natAbs else natToStr i.natAbs

/-- Digits-to-value. -/
def digitsVal (ds : Str) : Nat :=
  ds.foldl (fun acc c => acc * 10 + (c.toNat - 48)) 0

/-- JSON number token after an optional leading minus sign has been consumed:
`(0|[1-9][0-9]*)(\.[0-9]+)?([eE][+-]?[0-9]+)?`.  Returns
(integer part digits, rest-of-token text, remainder).  A dot or exponent
marker not followed by digits is left in the remainder, where it can never
start a valid continuation — acceptance agrees with Python, which rejects
such inputs at the leftover characters. -/
def parseNumBody (s : Str) : Option (Str × Str × Str) :=
  match s with
  | [] => none
  | c :: cs =>
    if c == '0' || ('1' ≤ c && c ≤ '9') then
      let intDigits := if c == '0' then [c] else c :: cs.takeWhile isDigitChar
      let rest0 := if c == '0' then cs else cs.dropWhile isDigitChar
      let (frac, rest1) :=
        match rest0 with
        | '.' :: ds =>
          let fd := ds.takeWhile isDigitChar
          if fd.isEmpty then (([] : Str), rest0) else ('.' :: fd, ds.dropWhile isDigitChar)
        | _ => ([], rest0)
      let (ex, rest2) :=
        match rest1 with
        | e :: rest1x =>
          if e == 'e' || e == 'E' then
            match rest1x with
            | sgn :: ds =>
              if sgn == '+' || sgn == '-' then
                let ed := ds.takeWhile isDigitChar
                if ed.isEmpty then (([] : Str), rest1)
                else (e :: sgn :: ed, ds.dropWhile isDigitChar)
              else
                let ed := rest1x.takeWhile isDigitChar
                if ed.isEmpty then (([] : Str), rest1)
                else (e :: ed, rest1x.dropWhile isDigitChar)
            | [] => ([], rest1)
          else ([], rest1)
        | [] => ([], rest1)
      some (intDigits, frac ++ ex, rest2)
    else none

/-- A parsed number token: integral tokens carry their value, others their
raw text. -/
def mkNum (neg : Bool) (intDigits frest : Str) : Json :=
  if frest = [] then
    let v : Int := Int.ofNat (digitsVal intDigits)
    Json.num (if neg then -v else v) []
  else
    Json.num 0 ((if neg then ['-'] else []) ++ intDigits ++ frest)

mutual

/-- One JSON value, preceded by optional whitespace. -/
def parseValue : Nat → Str → Option (Json × Str)
  | 0, _ => none
  | f + 1, s =>
    let s := skipJsonWs s
    match s with
    | [] => none
    | c :: cs =>
      if c = '{' then parseMembers f cs
      else if c = '[' then parseElems f cs
      else if c = '"' then (parseStringBody (cs.length + 1) cs).map fun (str, r) => (Json.str str, r)
      else if List.isPrefixOf "true".toList s then some (Json.bool true, s.drop 4)
      else if List.isPrefixOf "false".toList s then some (Json.bool false, s.drop 5)
      else if List.isPrefixOf "null".toList s then some (Json.null, s.drop 4)
      else if List.isPrefixOf "NaN".toList s then some (Json.num 0 "NaN".toList, s.drop 3)
      else if List.isPrefixOf "Infinity".toList s then some (Json.num 0 "Infinity".toList, s.drop 8)
      else if List.isPrefixOf "-Infinity".toList s then some (Json.num 0 "-Infinity".toList, s.drop 9)
      else if c = '-' then
        (parseNumBody cs).map fun (ds, fr, r) => (mkNum true ds fr, r)
      else
        (parseNumBody s).map fun (ds, fr, r) => (mkNum false ds fr, r)

/-- Array elements after the opening `[`. -/
def parseElems : Nat → Str → Option (Json × Str)
  | 0, _ => none
  | f + 1, s =>
    let s1 := skipJsonWs s
    match s1 with
    | ']' :: r => some (Json.arr [], r)
    | _ =>
      match parseValue f s1 with
      | none => none
      | some (v, r) =>
        (parseElemsTail f r).map fun (vs, r2) => (Json.arr (v :: vs), r2)

/-- `, value`* `]` -/
def parseElemsTail : Nat → Str → Option (List Json × Str)
  | 0, _ => none
  | f + 1, s =>
    match skipJsonWs s with
    | ']' :: r => some ([], r)
    | ',' :: r =>
      match parseValue f r with
      | none => none
      | some (v, r2) => (parseElemsTail f r2).map fun (vs, r3) => (v :: vs, r3)
    | _ => none

/-- Object members after the opening `{`. -/
def parseMembers : Nat → Str → Option (Json × Str)
  | 0, _ => none
  | f + 1, s =>
    let s1 := skipJsonWs s
    match s1 with
    | '}' :: r => some (Json.obj [], r)
    | '"' :: cs =>
      match parseStringBody (cs.length + 1) cs with
      | none => none
      | some (key, r) =>
        match skipJsonWs r with
        | ':' :: r2 =>
          match parseValue f r2 with
          | none => none
          | some (v, r3) =>
            (parseMembersTail f r3).map fun (kvs, r4) => (Json.obj ((key, v) :: kvs), r4)
        | _ => none
    | _ => none

/-- `, "key": value`* `}` -/
def parseMembersTail : Nat → Str → Option (List (Str × Json) × Str)
  | 0, _ => none
  | f + 1, s =>
    match skipJsonWs s with
    | '}' :: r => some ([], r)
    | ',' :: r =>
      match skipJsonWs r with
      | '"' :: cs =>
        match parseStringBody (cs.length + 1) cs with
        | none => none
        | some (key, r2) =>
          match skipJsonWs r2 with
          | ':' :: r3 =>
            match parseValue f r3 with
            | none => none
            | some (v, r4) => (parseMembersTail f r4).map fun (kvs, r5) => ((key, v) :: kvs, r5)
          | _ => none
      | _ => none
    | _ => none

end

/-- `json.loads` acceptance: parse one value and require only whitespace to
remain.  The fuel `4 * (length + 4)` strictly dominates the recursion depth:
every two consecutive recursive layers consume at least one input
character. -/
def jsonLoads (s : Str) : Option Json :=
  match parseValue (4 * (s.length + 4)) s with
  | some (v, rest) => if skipJsonWs rest = [] then some v else none
  | none => none

/-- Last-wins lookup into a parsed object (Python builds a `dict`, so a
duplicated key keeps the final occurrence), with a default — `dict.get`. -/
def objGet (kvs : List (Str × Json)) (key : Str) (dflt : Json) : Json :=
  match kvs.reverse.find? (fun kv => kv.1 == key) with
  | some kv => kv.2
  | none => dflt

/-- `dict.get` without default (`None` when absent). -/
def objGetOpt (kvs : List (Str × Json)) (key : Str) : Option Json :=
  (kvs.reverse.find? (fun kv => kv.1 == key)).map (·.2)

/-! ### Fenced-block extraction

`_parse_review_json` scans worker stdout with
`re.findall(r"```json\s*\n?(.*?)\n?\s*```", text, re.DOTALL)`.
Matches start at each occurrence of the literal ```` ```json ````; the greedy
`\s*\n?` then absorbs every whitespace character, so the captured group starts
at the first non-whitespace position; the lazy `(.*?)` ends the group at the
earliest point from which `\n?\s*```` ``` ```` matches, which is the first
following occurrence of ```` ``` ```` with the whitespace just before it
stripped from the group.  Scanning resumes after that closing fence. -/

/-- The characters matched by the regex class `\s` (and stripped by
`str.strip`) in Python — ASCII whitespace, the C1 separators, and the Unicode
space characters. -/
def isPyWs (c : Char) : Bool :=
  let n := c.toNat
  (9 ≤ n && n ≤ 13) || n == 32 || (28 ≤ n && n ≤ 31) || n == 0x85 || n == 0xa0 ||
    n == 0x1680 || (0x2000 ≤ n && n ≤ 0x200a) || n == 0x2028 || n == 0x2029 ||
    n == 0x202f || n == 0x205f || n == 0x3000

def stripTrailingWs (s : Str) : Str := (s.reverse.dropWhile isPyWs).reverse

def stripPy (s : Str) : Str := stripTrailingWs (s.dropWhile isPyWs)

/-- Split off everything up to the first occurrence of ```` ``` ````:
returns (characters before it, characters after it), or `none` when there is
no occurrence. -/
def findClose (s : Str) : Option (Str × Str) :=
  match s with
  | [] => none
  | c :: cs =>
    if List.isPrefixOf "```".toList (c :: cs) then some ([], (c :: cs).drop 3)
    else (findClose cs).map fun (a, b) => (c :: a, b)

theorem findClose_length {s a b : Str} (h : findClose s = some (a, b)) :
    b.length + 3 ≤ s.length := by
  induction s generalizing a b with
  | nil => simp [findClose] at h
  | cons c cs ih =>
    simp only [findClose] at h
    split at h
    · rename_i hp
      obtain ⟨rfl, rfl⟩ := by simpa using h
      have hp' : ("```".toList : Str) <+: (c :: cs) := by
        simpa using List.isPrefixOf_iff_prefix.mp hp
      have hlen : 3 ≤ (c :: cs).length := by simpa using hp'.length_le
      simp only [List.length_drop, List.length_cons] at hlen ⊢
      omega
    · match hfc : findClose cs with
      | none => simp [hfc] at h
      | some (a2, b2) =>
        simp only [hfc, Option.map_some] at h
        obtain ⟨h1, rfl⟩ := by simpa using h
        have := ih hfc
        simp only [List.length_cons]
        omega

/-- All captured groups of the fenced-block regex, in scan order, with
structural fuel (scanning resumes strictly later in the text at every call,
so `length + 1` fuel always suffices: `findClose_length` bounds the
continuation). -/
def findBlocksF : Nat → Str → List Str
  | 0, _ => []
  | _ + 1, [] => []
  | f + 1, c :: cs =>
    if List.isPrefixOf "```json".toList (c :: cs) then
      match findClose (((c :: cs).drop 7).dropWhile isPyWs) with
      | some (content, rest) => stripTrailingWs content :: findBlocksF f rest
      | none => []
    else
      findBlocksF f cs

def findBlocks (s : Str) : List Str := findBlocksF (s.length + 1) s

/-- `_parse_review_json` (main.py): take the **last** fenced `json` block,
`json.loads` it, and read `issues` / `summary` with `dict.get` defaults.
`none` models the `return None, ""` paths (no block, `json.JSONDecodeError`,
or the `AttributeError` raised by `.get` on a non-object value). -/
def _parse_review_json (text : Str) : Option (Json × Json) :=
  match (findBlocks text).getLast? with
  | none => none
  | some b =>
    match jsonLoads b with
    | some (Json.obj kvs) =>
      some (objGet kvs "issues".toList (Json.arr []), objGet kvs "summary".toList (Json.str []))
    | some _ => none
    | none => none

/-! ### Configuration (config.py)

Values are the defaults; the environment-variable overrides are not modeled.
-/

def AUTO_RETRY_DELAY_SEC : Nat := 10

/-- Modelled from the spec: `RATE_LIMIT_RETRY_DELAY_SEC` is imported by
main.py from the configuration module, but its defining line is not among the
sources; the spec only says it is the *long* retry delay used for rate-limited
failures.  The numeric value chosen here is arbitrary — every theorem refers
to the constant only by name. -/
def RATE_LIMIT_RETRY_DELAY_SEC : Nat := 600

def MAX_REVIEW_ROUNDS : Int := 3

/-! ### Data model (persisted task documents and in-memory worker state)

Timestamps generated by `_now()` / `datetime.now` are modeled as parameters:
a natural `now` where arithmetic or field stamping is performed, and a raw
string `nowS` where the value is only stored or compared lexicographically
(`created_at` in the dispatch sort key).  Fields never read by any embedded
operation or claim (`plan_questions`, `risk_level`, `acceptance_criteria`,
`rollback_plan`, `worktree_branch`, event `meta` payloads, timeline `detail`
payloads, random event ids) are omitted. -/

structure Attempt where
  attempt : Nat
  worker_id : Str
  engine : Option Str
  lease_id : Str
  started_at : Nat
  completed_at : Option Nat
  status : Str
  exit_code : Option Int
  error_log : Option Str
  commit_ids : List Str
deriving DecidableEq

structure TimelineEntry where
  /-- the source key `at` (a Lean keyword) -/
  at_ : Nat
  event : Str
deriving DecidableEq

/-- The `review_result` dict written by review handling:
`{"issues": ..., "summary": ..., "raw"?: ...}`. -/
structure ReviewResultVal where
  issues : Json
  summary : Json
  raw : Option Str

structure Task where
  id : Str
  title : Str
  description : Str
  status : Str
  priority : Str
  task_type : Str
  engine : Str
  routed_engine : Option Str
  parent_task_id : Option Str
  sub_tasks : List Str
  depends_on : List Str
  plan_mode : Bool
  plan_content : Option Str
  sla_tier : Option Str
  assigned_worker : Option Str
  review_status : Option Str
  review_engine : Option Str
  review_result : Option ReviewResultVal
  created_at : Str
  started_at : Option Nat
  completed_at : Option Nat
  commit_ids : List Str
  error_log : Option Str
  retry_count : Int
  max_retries : Int
  retry_after : Option Nat
  attempts : List Attempt
  timeline : List TimelineEntry
  blocked_reason : Option Str
  fallback_reason : Option Str
  review_round : Int
  last_exit_code : Option Int
  _review_feedback : Option Str

structure Event where
  type : Str
  level : Str
  task_id : Option Str
  worker_id : Option Str
  message : Str

/-- A per-project `tasks.json` document (`meta` is recomputed on write and
read by nothing the claims touch). -/
structure TaskDoc where
  tasks : List Task
  events : List Event

structure WorkerHealth where
  last_heartbeat : Option Nat
  consecutive_failures : Int
  avg_task_duration_ms : Int
deriving DecidableEq

structure Worker where
  id : Str
  engine : Str
  status : Str
  current_task_id : Option Str
  current_project_id : Option Str
  lease_id : Option Str
  pid : Option Nat
  started_at : Option Nat
  last_seen_at : Option Nat
  total_tasks_completed : Int
  cli_available : Bool
  health : WorkerHealth
deriving DecidableEq

/-- In-memory engine availability (`ENGINE_HEALTH`). -/
structure EngineHealth where
  claude : Bool
  codex : Bool
deriving DecidableEq

def EngineHealth.get (eh : EngineHealth) (e : Str) : Bool :=
  if e == "claude".toList then eh.claude
  else if e == "codex".toList then eh.codex
  else false

/-- Combined mutable state touched by a completion or failure submission:
the persisted document plus the in-memory worker pool. -/
structure SysState where
  data : TaskDoc
  workers : List Worker

/-! ### Shared helpers (main.py) -/

/-- Python truthiness of an optional string (`None` and `""` are falsy). -/
def truthy (o : Option Str) : Bool :=
  match o with
  | none => false
  | some s => !s.isEmpty

/-- `a or b` for an optional string `a` and a plain string `b`. -/
def pyOr (a : Option Str) (b : Str) : Option Str :=
  if truthy a then a else if b.isEmpty then none else some b

/-- `find_task`: first task with the given id. -/
def find_task (doc : TaskDoc) (taskId : Str) : Option Task :=
  doc.tasks.find? fun t => t.id == taskId

/-- `_worker_by_id` over the in-memory pool. -/
def _worker_by_id (workers : List Worker) (workerId : Str) : Option Worker :=
  workers.find? fun w => w.id == workerId

/-- Update (in place) the first-matching task of a document.  All updaters
used below preserve the task id, mirroring Python's aliased dict mutation. -/
def updateTask (doc : TaskDoc) (taskId : Str) (f : Task → Task) : TaskDoc :=
  { doc with tasks := doc.tasks.map fun t => if t.id == taskId then f t else t }

def updateWorker (ws : List Worker) (workerId : Str) (f : Worker → Worker) : List Worker :=
  ws.map fun w => if w.id == workerId then f w else w

/-- `int(...)` on the id with every `"task-"` occurrence removed — helper for
`gen_task_id`. -/
def stripTaskMarkerF : Nat → Str → Str
  | 0, _ => []
  | _ + 1, [] => []
  | f + 1, c :: cs =>
    if List.isPrefixOf "task-".toList (c :: cs) then stripTaskMarkerF f ((c :: cs).drop 5)
    else c :: stripTaskMarkerF f cs

def stripTaskMarker (s : Str) : Str := stripTaskMarkerF (s.length + 1) s

/-- Python `int()` on a string: surrounding whitespace, an optional sign and
a non-empty digit run (underscore digit separators are not modeled). -/
def pyInt (s : Str) : Option Int :=
  let t := stripPy s
  let (neg, ds) :=
    match t with
    | '-' :: r => (true, r)
    | '+' :: r => (false, r)
    | r => (false, r)
  if ds ≠ [] ∧ ds.all isDigitChar then
    some (if neg then -(Int.ofNat (digitsVal ds)) else Int.ofNat (digitsVal ds))
  else none

/-- `f"task-{n:03d}"` -/
def formatTaskId (n : Int) : Str :=
  let digits := if n < 0 then intToStr n else natToStr n.natAbs
  "task-".toList ++ (List.replicate (3 - digits.length) '0') ++ digits

/-- `gen_task_id`: one past the maximal numeric suffix (ids that do not parse
are skipped; the running maximum starts at 0). -/
def gen_task_id (doc : TaskDoc) : Str :=
  let maxNum := doc.tasks.foldl
    (fun m t => match pyInt (stripTaskMarker t.id) with
      | some v => max m v
      | none => m) 0
  formatTaskId (maxNum + 1)

/-- `add_timeline` (detail payloads are not modeled). -/
def add_timeline (now : Nat) (t : Task) (event : Str) : Task :=
  { t with timeline := t.timeline ++ [⟨now, event⟩] }

/-- `emit_event`: append to the document's event list, capped at the 2000
most recent entries. -/
def emit_event (doc : TaskDoc) (etype : Str) (level : Str := "info".toList)
    (taskId : Option Str := none) (workerId : Option Str := none)
    (message : Str := []) : TaskDoc :=
  let evs := doc.events ++ [⟨etype, level, taskId, workerId, message⟩]
  { doc with events := if evs.length > 2000 then evs.drop (evs.length - 2000) else evs }

/-- `_append_attempt`: record the engine of the worker actually used (falling
back to `routed_engine or engine` when the worker id is unknown). -/
def _append_attempt (now : Nat) (workers : List Worker) (t : Task)
    (workerId : Str) (leaseId : Str) : Task :=
  let actual :=
    match _worker_by_id workers workerId with
    | some w => some w.engine
    | none => pyOr t.routed_engine t.engine
  { t with attempts := t.attempts ++
      [⟨t.attempts.length + 1, workerId, actual, leaseId, now, none, "running".toList,
        none, none, []⟩] }

/-- `_complete_attempt`: stamp the most recent attempt. -/
def _complete_attempt (now : Nat) (t : Task) (success : Bool) (exitCode : Option Int)
    (errorLog : Option Str) (commitIds : List Str) : Task :=
  match t.attempts.getLast? with
  | none => t
  | some a =>
    { t with attempts := t.attempts.dropLast ++
        [{ a with completed_at := some now,
                  status := if success then "completed".toList else "failed".toList,
                  exit_code := exitCode, error_log := errorLog, commit_ids := commitIds }] }

/-- `_release_worker` (the in-memory runtime handles it also clears are not
modeled). -/
def _release_worker (now : Nat) (w : Worker) : Worker :=
  { w with pid := none, status := "idle".toList, current_task_id := none,
           started_at := none, lease_id := none, last_seen_at := some now,
           health := { w.health with last_heartbeat := some now } }

/-- `classify_task_type`: first routing rule whose keyword set intersects the
lowercased `title + " " + description`; default `feature`. -/
def containsSub (needle hay : Str) : Bool :=
  match hay with
  | [] => needle.isEmpty
  | _ :: tl => List.isPrefixOf needle hay || containsSub needle tl

/-- `ROUTING_RULES` (config.py): `(task_type, keywords)`, in order. -/
def ROUTING_RULES : List (Str × List Str) :=
  [("feature".toList, ["开发".toList, "实现".toList, "新增".toList, "添加".toList,
      "创建".toList, "implement".toList, "add".toList, "create".toList]),
   ("review".toList, ["review".toList, "审查".toList, "检查".toList,
      "code review".toList, "pr review".toList]),
   ("refactor".toList, ["重构".toList, "优化".toList, "refactor".toList,
      "cleanup".toList, "整理".toList]),
   ("bugfix".toList, ["修复".toList, "bug".toList, "fix".toList, "错误".toList,
      "异常".toList, "crash".toList]),
   ("analysis".toList, ["分析".toList, "审计".toList, "analyze".toList,
      "audit".toList, "检测".toList, "扫描".toList]),
   ("plan".toList, ["计划".toList, "拆解".toList, "设计".toList, "plan".toList,
      "design".toList, "架构".toList])]

def TASK_TYPES : List Str :=
  ["feature".toList, "bugfix".toList, "review".toList, "refactor".toList,
   "analysis".toList, "plan".toList, "audit".toList]

def classify_task_type (title description : Str) : Str :=
  let text := lowerStr (title ++ (' ' :: description))
  match ROUTING_RULES.find? (fun rule => rule.2.any fun kw => containsSub (lowerStr kw) text) with
  | some rule => rule.1
  | none => "feature".toList

/-- `route_task`: author hint wins; otherwise the type→engine preference map,
degraded by engine health, recording `fallback_reason` on the task. -/
def route_task (eh : EngineHealth) (t : Task) : Str × Task :=
  if truthy (some t.engine) && t.engine ≠ "auto".toList then (t.engine, t)
  else
    let preferred :=
      if t.task_type ∈ ["feature".toList, "bugfix".toList, "plan".toList, "test".toList]
        then "claude".toList
      else if t.task_type ∈ ["review".toList, "refactor".toList, "analysis".toList,
          "audit".toList] then "codex".toList
      else "claude".toList
    if eh.get preferred then (preferred, t)
    else
      let fallback := if preferred == "claude".toList then "codex".toList else "claude".toList
      if eh.get fallback then
        (fallback, { t with fallback_reason := some (preferred ++ "_unhealthy".toList) })
      else
        (preferred, { t with fallback_reason := some "no_healthy_engine".toList })

/-- `dependencies_satisfied`: review tasks may start once each dependency is
`reviewing` or `completed`; other tasks need every dependency `completed`. -/
def dependencies_satisfied (t : Task) (doc : TaskDoc) : Bool :=
  let isReview := t.task_type == "review".toList
  t.depends_on.all fun dep =>
    match find_task doc dep with
    | none => false
    | some dt =>
      if isReview then dt.status == "reviewing".toList || dt.status == "completed".toList
      else dt.status == "completed".toList

/-! ### Review loop (main.py) -/

/-- Python truthiness of a parsed JSON value.  Non-integral numbers carry
only their token and are approximated as truthy (`0.0` would be falsy in
Python; no verified property reads this case). -/
def jsonTruthy (j : Json) : Bool :=
  match j with
  | .null => false
  | .bool b => b
  | .num i tok => if tok.isEmpty then decide (i ≠ 0) else true
  | .str s => !s.isEmpty
  | .arr xs => !xs.isEmpty
  | .obj kvs => !kvs.isEmpty

/-- `isinstance(i, dict) and i.get("severity") in ("critical", "high")` -/
def isCriticalIssue (j : Json) : Bool :=
  match j with
  | .obj kvs =>
    match objGetOpt kvs "severity".toList with
    | some (.str s) => s == "critical".toList || s == "high".toList
    | _ => false
  | _ => false

mutual

/-- Python `repr()` of a JSON value.  Scalar cases are exact (modulo the
non-integral number tokens noted on `Json.num`); string quoting inside
containers is approximated without escape handling.  No verified property
depends on the container renderings. -/
def pyRepr : Json → Str
  | .null => "None".toList
  | .bool true => "True".toList
  | .bool false => "False".toList
  | .num i tok => if tok.isEmpty then intToStr i else tok
  | .str s => '\'' :: (s ++ ['\''])
  | .arr xs => '[' :: (pyStrElems xs ++ [']'])
  | .obj kvs => Char.ofNat 123 :: (pyStrFields kvs ++ [Char.ofNat 125])

def pyStrElems : List Json → Str
  | [] => []
  | [x] => pyRepr x
  | x :: y :: xs => pyRepr x ++ ", ".toList ++ pyStrElems (y :: xs)

def pyStrFields : List (Str × Json) → Str
  | [] => []
  | [(k, v)] => ('\'' :: k ++ "': ".toList) ++ pyRepr v
  | (k, v) :: kv2 :: kvs =>
    ('\'' :: k ++ "': ".toList) ++ pyRepr v ++ ", ".toList ++ pyStrFields (kv2 :: kvs)

end

/-- Python `str()` of a JSON value (differs from `repr` only on top-level
strings). -/
def pyStr (j : Json) : Str :=
  match j with
  | .str s => s
  | j => pyRepr j

/-- The feedback block accumulated by `_apply_review_to_parent`:
`review_summary` followed by one `\n- [sev] file:line desc` line per dict
issue (`i.get` defaults `"medium"` / `""` / `0` / `""`). -/
def mkFeedback (review_summary : Str) (issues : List Json) : Str :=
  issues.foldl
    (fun acc i =>
      match i with
      | .obj kvs =>
        let sev := objGet kvs "severity".toList (Json.str "medium".toList)
        let fpath := objGet kvs "file".toList (Json.str [])
        let line := objGet kvs "line".toList (Json.num 0 [])
        let desc := objGet kvs "description".toList (Json.str [])
        acc ++ "\n- [".toList ++ pyStr sev ++ "] ".toList ++ pyStr fpath ++ [':'] ++
          pyStr line ++ [' '] ++ pyStr desc
      | _ => acc)
    review_summary

/-- `_apply_review_to_parent`: approve when no issue is critical/high;
otherwise bump `review_round` and either escalate at the cap or reset the
parent to `pending` with the feedback block injected. -/
def _apply_review_to_parent (now : Nat) (issues : List Json) (review_summary : Str)
    (parent : Task) : Task :=
  let has_critical := issues.any isCriticalIssue
  if !has_critical then
    let p1 := { parent with review_status := some "approved".toList }
    let p2 :=
      if p1.status ≠ "completed".toList then
        { p1 with status := "completed".toList, completed_at := some now }
      else p1
    add_timeline now p2 "review_approved".toList
  else
    let round_num := parent.review_round + 1
    if round_num ≥ MAX_REVIEW_ROUNDS then
      add_timeline now
        { parent with review_round := round_num, status := "plan_review".toList,
                      blocked_reason := some "max_review_rounds_exceeded".toList,
                      review_status := some "changes_requested".toList }
        "review_max_rounds".toList
    else
      let feedback := mkFeedback review_summary issues
      add_timeline now
        { parent with review_round := round_num, _review_feedback := some feedback,
                      status := "pending".toList, assigned_worker := none,
                      started_at := none,
                      review_status := some "changes_requested".toList }
        "review_fix_requested".toList

/-- `review_summary or ""` coerced for string concatenation: strings pass
through, falsy values become `""`, and a truthy non-string raises a
`TypeError` in the source (modeled as `none`). -/
def toSummaryStr (j : Json) : Option Str :=
  match j with
  | .str s => some s
  | j => if jsonTruthy j then none else some []

/-- `_handle_review_completion`: parse the reviewer's stdout and drive the
Review→Fix→Verify loop on the parent.  `none` models the uncaught
`TypeError` paths of duck-typed verdict shapes (non-list `issues`, truthy
non-string `summary`); every other path returns the updated document. -/
def _handle_review_completion (now : Nat) (reviewTaskId : Str) (summary : Str)
    (doc : TaskDoc) : Option TaskDoc :=
  match _parse_review_json summary with
  | none =>
    let doc1 := updateTask doc reviewTaskId fun rt =>
      { rt with
          review_result := some ⟨Json.arr [], Json.str "parse_failed".toList,
            some (summary.take 2000)⟩,
          review_status := some "completed".toList }
    match find_task doc reviewTaskId with
    | none => some doc1
    | some rt =>
      match rt.parent_task_id with
      | none => some doc1
      | some pid =>
        match find_task doc1 pid with
        | none => some doc1
        | some _ =>
          some (updateTask doc1 pid fun p =>
            add_timeline now
              { p with review_status := some "changes_requested".toList,
                       status := "plan_review".toList,
                       blocked_reason := some "review_parse_failed".toList }
              "review_parse_failed".toList)
  | some (issuesJ, summaryJ) =>
    let doc1 := updateTask doc reviewTaskId fun rt =>
      { rt with review_result := some ⟨issuesJ, summaryJ, none⟩,
                review_status := some "completed".toList }
    match find_task doc reviewTaskId with
    | none => some doc1
    | some rt =>
      match rt.parent_task_id with
      | none => some doc1
      | some pid =>
        match find_task doc1 pid with
        | none => some doc1
        | some _ =>
          match issuesJ, toSummaryStr summaryJ with
          | Json.arr xs, some s =>
            some (updateTask doc1 pid (_apply_review_to_parent now xs s))
          | _, _ => none

/-- `maybe_trigger_adversarial_review`: for a completed feature/bugfix/
refactor task under the round cap with no live review child, create a review
child routed to the opposite of `routed_engine or engine`, insert it at the
head of the task list, and move the parent to `reviewing`. -/
def maybe_trigger_adversarial_review (now : Nat) (nowS : Str) (taskId : Str)
    (doc : TaskDoc) : Option Task × TaskDoc :=
  match find_task doc taskId with
  | none => (none, doc)
  | some task =>
    if ¬ (task.task_type ∈ ["feature".toList, "bugfix".toList, "refactor".toList]) then
      (none, doc)
    else if task.review_round ≥ MAX_REVIEW_ROUNDS then (none, doc)
    else
      let existing := doc.tasks.filter fun t2 =>
        t2.parent_task_id == some taskId && t2.task_type == "review".toList &&
          !(t2.status == "completed".toList || t2.status == "failed".toList)
      if !existing.isEmpty then (none, doc)
      else
        let review_engine :=
          if pyOr task.routed_engine task.engine == some "claude".toList
            then "codex".toList else "claude".toList
        let review_task : Task :=
          { id := gen_task_id doc,
            title := "Review: ".toList ++ task.title,
            description := "对任务 ".toList ++ taskId ++ " 的代码做对抗式 Review".toList,
            status := "pending".toList,
            priority := task.priority,
            task_type := "review".toList,
            engine := "auto".toList,
            routed_engine := some review_engine,
            parent_task_id := some taskId,
            sub_tasks := [],
            depends_on := [taskId],
            plan_mode := false,
            plan_content := none,
            sla_tier := none,
            assigned_worker := none,
            review_status := none,
            review_engine := some review_engine,
            review_result := none,
            created_at := nowS,
            started_at := none,
            completed_at := none,
            commit_ids := [],
            error_log := none,
            retry_count := 0,
            max_retries := 3,
            retry_after := none,
            attempts := [],
            timeline := [],
            blocked_reason := none,
            fallback_reason := none,
            review_round := 0,
            last_exit_code := none,
            _review_feedback := none }
        let review_task := add_timeline now review_task "task_created".toList
        let doc1 := updateTask doc taskId fun t =>
          add_timeline now
            { t with review_status := some "pending".toList, status := "reviewing".toList }
            "review_requested".toList
        (some review_task, { doc1 with tasks := review_task :: doc1.tasks })

/-! ### Decomposition and parent roll-up (main.py) -/

structure SubTaskInput where
  title : Str
  description : Str
  task_type : Str
  engine : Str
  priority : Str
deriving DecidableEq

/-- Characters on which `str.splitlines` breaks. -/
def isLineBreak (c : Char) : Bool :=
  let n := c.toNat
  n == 10 || n == 13 || n == 11 || n == 12 || n == 28 || n == 29 || n == 30 ||
    n == 0x85 || n == 0x2028 || n == 0x2029

def splitlinesGo (cur : Str) : Str → List Str
  | [] => [cur.reverse]
  | '\r' :: '\n' :: rest =>
    cur.reverse :: (match rest with | [] => [] | r => splitlinesGo [] r)
  | c :: cs =>
    if isLineBreak c then cur.reverse :: (match cs with | [] => [] | r => splitlinesGo [] r)
    else splitlinesGo (c :: cur) cs

/-- `str.splitlines` (line-break set as in CPython; `\r\n` is one break; a
trailing break yields no empty final line). -/
def pySplitlines (s : Str) : List Str :=
  match s with
  | [] => []
  | _ => splitlinesGo [] s

/-- `re.sub(r"^(?:[-*]|\d+[.)、])\s*", "", line)`: strip one leading bullet
or ordinal marker together with the whitespace following it. -/
def stripListMarker (line : Str) : Str :=
  match line with
  | [] => []
  | c :: cs =>
    if c = '-' ∨ c = '*' then cs.dropWhile isPyWs
    else
      let ds := line.takeWhile isDigitChar
      if ds.isEmpty then line
      else
        match line.dropWhile isDigitChar with
        | p :: r => if p = '.' ∨ p = ')' ∨ p = '、' then r.dropWhile isPyWs else line
        | [] => line

/-- The stripped non-empty lines of `plan_content` (the `lines`
comprehension of `_decompose_from_plan`). -/
def planLines (task : Task) : List Str :=
  ((pySplitlines (stripPy (task.plan_content.getD []))).map stripPy).filter
    fun l => !l.isEmpty

/-- The `candidates` loop of `_decompose_from_plan`: markers stripped, only
lines of cleaned length at least 3 survive. -/
def planCandidates (task : Task) : List Str :=
  ((planLines task).map fun l => stripPy (stripListMarker l)).filter
    fun c => decide (3 ≤ c.length)

/-- One synthesized sub-task input (`idx` is the 1-based `enumerate` index). -/
def mkSubTaskInput (task : Task) (idx : Nat) (text : Str) : SubTaskInput :=
  let ttype := classify_task_type text text
  { title := task.title ++ " - 子任务 ".toList ++ natToStr idx ++ ": ".toList ++
      text.take 80,
    description := text,
    task_type := if ttype ∈ TASK_TYPES then ttype else "feature".toList,
    engine := "auto".toList,
    priority := task.priority }

/-- `_decompose_from_plan`: non-trivial plan lines (markers stripped, length
at least 3) become sub-task inputs, capped at 8; an empty candidate list
falls back to a single sub-task carrying the parent title. -/
def _decompose_from_plan (task : Task) : List SubTaskInput :=
  let candidates := planCandidates task
  let candidates := if candidates.isEmpty then [task.title] else candidates
  (candidates.take 8).enum.map fun (i, text) => mkSubTaskInput task (i + 1) text

/-- `_all_subtasks_completed`: `False` for an empty `sub_tasks` list,
otherwise every child must exist and be `completed`. -/
def _all_subtasks_completed (parent : Task) (tasks : List Task) : Bool :=
  if parent.sub_tasks.isEmpty then false
  else parent.sub_tasks.all fun sid =>
    match tasks.find? (fun t => t.id == sid) with
    | some s => s.status == "completed".toList
    | none => false

/-- Completion applied by the roll-up to one parent. -/
def rollupComplete (now : Nat) (t : Task) : Task :=
  add_timeline now
    { t with status := "completed".toList, completed_at := some now, blocked_reason := none }
    "subtasks_all_completed".toList

/-- One pass of the `for task in data["tasks"]` loop of
`_refresh_parent_rollup`, position by position with structural fuel (the
position advances every call and the list length is preserved, so
`length + 1` fuel always reaches the end): the subtask check at each step
sees the mutations made by earlier steps, exactly as the in-place Python
loop does. -/
def rollupGo (now : Nat) : Nat → Nat → List Task → List Task
  | 0, _, tasks => tasks
  | f + 1, i, tasks =>
    match tasks[i]? with
    | none => tasks
    | some t =>
      let tasks' :=
        if t.status == "blocked_by_subtasks".toList ∧ _all_subtasks_completed t tasks then
          tasks.set i (rollupComplete now t)
        else tasks
      rollupGo now f (i + 1) tasks'

def _refresh_parent_rollup (now : Nat) (doc : TaskDoc) : TaskDoc :=
  { doc with tasks := rollupGo now (doc.tasks.length + 1) 0 doc.tasks }

/-! ### Completion and failure submissions (main.py) -/

/-- `_complete_task_internal`.  The two guard mismatches return the state
unchanged (the source returns `None` before any mutation and never writes).
`none` models the uncaught duck-type exception inside review handling (see
`_handle_review_completion`); `set` iteration order for the commit-id union
is hash-dependent in Python and modeled as first-occurrence order — no
verified property reads the order. -/
def _complete_task_internal (now : Nat) (nowS : Str) (taskId workerId : Str)
    (leaseId : Option Str) (commitIds : List Str) (summary : Option Str)
    (st : SysState) : Option SysState :=
  match find_task st.data taskId, _worker_by_id st.workers workerId with
  | some task, some worker =>
    if task.assigned_worker ≠ some workerId then some st
    else if truthy leaseId ∧ truthy worker.lease_id ∧ worker.lease_id ≠ leaseId then some st
    else
      let doc1 := updateTask st.data taskId fun t =>
        let t := { t with commit_ids := dedupFirst [] (t.commit_ids ++ commitIds),
                          status := "completed".toList, completed_at := some now,
                          error_log := none, last_exit_code := some 0,
                          _review_feedback := none }
        let t := add_timeline now t "task_completed".toList
        _complete_attempt now t true (some 0) none commitIds
      let ws1 := updateWorker st.workers workerId fun w =>
        { w with total_tasks_completed := w.total_tasks_completed + 1,
                 health := { w.health with consecutive_failures := 0 } }
      let doc2opt :=
        if task.task_type == "review".toList then
          _handle_review_completion now taskId (summary.getD []) doc1
        else some doc1
      match doc2opt with
      | none => none
      | some doc2 =>
        let doc3 := (maybe_trigger_adversarial_review now nowS taskId doc2).2
        let doc4 := emit_event doc3 "task_completed".toList "info".toList
          (some taskId) (some workerId)
        some ⟨_refresh_parent_rollup now doc4, ws1⟩
  | _, _ => some st

/-- The rate-limit signature test of `_fail_task_internal`:
`error_log and ("rate_limit" in error_log or "hit your limit" in error_log)`. -/
def isRateLimited (errorLog : Str) : Bool :=
  !errorLog.isEmpty &&
    (containsSub "rate_limit".toList errorLog ||
     containsSub "hit your limit".toList errorLog)

/-- `_fail_task_internal`: guarded like completion; on acceptance, record the
attempt failure, bump and release the worker, then either schedule an
auto-retry (`pending`, cleared assignment, `retry_after = now + delay`, the
delay depending on the rate-limit signature) or mark the task `failed` at the
retry cap.  A third `alert_triggered` event fires at 3 consecutive worker
failures. -/
def _fail_task_internal (now : Nat) (taskId workerId : Str) (leaseId : Option Str)
    (errorLog : Str) (exitCode : Option Int) (st : SysState) : SysState :=
  match find_task st.data taskId, _worker_by_id st.workers workerId with
  | some task, some worker =>
    if task.assigned_worker ≠ some workerId then st
    else if truthy leaseId ∧ truthy worker.lease_id ∧ worker.lease_id ≠ leaseId then st
    else
      let retry_count := task.retry_count + 1
      let max_retries := task.max_retries
      let doc1 := updateTask st.data taskId fun t =>
        _complete_attempt now
          { t with error_log := some errorLog, last_exit_code := exitCode,
                   retry_count := min retry_count max_retries }
          false exitCode (some errorLog) []
      let ws1 := updateWorker st.workers workerId fun w =>
        _release_worker now
          { w with health :=
              { w.health with consecutive_failures := w.health.consecutive_failures + 1 } }
      let retry_delay :=
        if isRateLimited errorLog then RATE_LIMIT_RETRY_DELAY_SEC else AUTO_RETRY_DELAY_SEC
      let doc3 :=
        if retry_count < max_retries then
          let doc2 := updateTask doc1 taskId fun t =>
            add_timeline now
              { t with status := "pending".toList, assigned_worker := none,
                       started_at := none, retry_after := some (now + retry_delay) }
              "auto_retry_scheduled".toList
          emit_event doc2 "auto_retry_scheduled".toList "warning".toList
            (some taskId) (some workerId)
        else
          let doc2 := updateTask doc1 taskId fun t =>
            add_timeline now { t with status := "failed".toList } "task_failed".toList
          emit_event doc2 "task_failed".toList "error".toList (some taskId) (some workerId)
      let doc4 :=
        if worker.health.consecutive_failures + 1 ≥ 3 then
          emit_event doc3 "alert_triggered".toList "critical".toList
            (some taskId) (some workerId)
        else doc3
      ⟨doc4, ws1⟩
  | _, _ => st

/-! ### Dispatch ordering (dispatcher.py) and manual dispatch (main.py) -/

/-- `_sla_rank`: `{"urgent": 0, "expedite": 1, "standard": 2}` with default 2
on a missing or unknown tier. -/
def _sla_rank (t : Task) : Nat :=
  let s := t.sla_tier.getD "standard".toList
  if s == "urgent".toList then 0 else if s == "expedite".toList then 1 else 2

/-- `{"high": 0, "medium": 1, "low": 2}.get(priority, 1)` -/
def prioRank (t : Task) : Nat :=
  if t.priority == "high".toList then 0
  else if t.priority == "medium".toList then 1
  else if t.priority == "low".toList then 2
  else 1

/-- Lexicographic strict order on strings by code point (Python `str.__lt__`;
a proper prefix is smaller). -/
def strLtB : Str → Str → Bool
  | [], [] => false
  | [], _ :: _ => true
  | _ :: _, [] => false
  | a :: as, b :: bs => if a < b then true else if b < a then false else strLtB as bs

/-- Non-strict comparison of the dispatch sort key
`(sla_rank, priority_rank, created_at)`. -/
def keyLeB (a b : Task) : Bool :=
  if _sla_rank a ≠ _sla_rank b then decide (_sla_rank a < _sla_rank b)
  else if prioRank a ≠ prioRank b then decide (prioRank a < prioRank b)
  else strLtB a.created_at b.created_at || a.created_at == b.created_at

/-- Stable insertion: an element goes before the first entry whose key is
not strictly smaller. -/
def pyInsert (a : Task) : List Task → List Task
  | [] => [a]
  | b :: l => if keyLeB a b then a :: b :: l else b :: pyInsert a l

/-- `pending.sort(key=lambda t: (_sla_rank(t), priority_rank, created_at))`.
Python's Timsort is stable with respect to the key's total preorder, and a
stable sort for a total preorder is unique, so this stable insertion sort
produces the identical list. -/
def dispatchSort : List Task → List Task
  | [] => []
  | a :: l => pyInsert a (dispatchSort l)

/-- The `retry_after` gate of the candidate loop (`continue` while
`now < retry_dt`). -/
def retryGateOpen (now : Nat) (t : Task) : Bool :=
  match t.retry_after with
  | none => true
  | some r => decide (r ≤ now)

/-- `task["routed_engine"] = task.get("routed_engine") or route_task(task)` -/
def materializeRouted (eh : EngineHealth) (t : Task) : Task :=
  if truthy t.routed_engine then t
  else
    let (e, t2) := route_task eh t
    { t2 with routed_engine := some e }

/-- The candidate collection of `_dispatch_for_project`: `pending` status, no
assigned worker, dependencies satisfied, retry gate open; `routed_engine`
materialized. -/
def collectPending (now : Nat) (eh : EngineHealth) (doc : TaskDoc) : List Task :=
  doc.tasks.filterMap fun t =>
    if t.status == "pending".toList && !truthy t.assigned_worker &&
        dependencies_satisfied t doc && retryGateOpen now t
    then some (materializeRouted eh t) else none

/-- The sorted dispatch queue of one cycle. -/
def dispatchCandidates (now : Nat) (eh : EngineHealth) (doc : TaskDoc) : List Task :=
  dispatchSort (collectPending now eh doc)

/-- The manual dispatch endpoint `dispatch_task` (`POST
/api/tasks/{task_id}/dispatch`): route, pick an idle worker of that engine or
fall back to the opposite engine (with no review-task exemption), lease and
assign.  The fresh lease id is a parameter; the background runner launch is
not modeled.  `Except` carries the `HTTPException` detail strings. -/
def dispatch_task (now : Nat) (leaseId : Str) (eh : EngineHealth) (taskId : Str)
    (st : SysState) : Except Str SysState :=
  match find_task st.data taskId with
  | none => .error "Task not found".toList
  | some task =>
    if task.status ≠ "pending".toList then .error "Task is not pending".toList
    else if !dependencies_satisfied task st.data then .error "Dependencies not completed".toList
    else
      let (engine, task1) :=
        match task.routed_engine with
        | some r => if !r.isEmpty then (r, task) else route_task eh task
        | none => route_task eh task
      let found := st.workers.find? fun w =>
        w.engine == engine && w.status == "idle".toList
      let (foundFb, task2) :=
        match found with
        | some w => (some w, task1)
        | none =>
          let fallback := if engine == "claude".toList then "codex".toList else "claude".toList
          match st.workers.find? (fun (w : Worker) => w.engine == fallback && w.status == "idle".toList) with
          | some w =>
            let fbReason := "manual_dispatch_fallback_".toList ++ fallback
            (some w, { task1 with fallback_reason := some fbReason })
          | none => (none, task1)
      match foundFb with
      | none => .error "No idle worker available".toList
      | some worker =>
        let doc1 := updateTask st.data taskId fun _ =>
          let t := { task2 with status := "in_progress".toList,
                                assigned_worker := some worker.id,
                                started_at := some now }
          let t := _append_attempt now st.workers t worker.id leaseId
          add_timeline now t "task_dispatched".toList
        let ws1 := updateWorker st.workers worker.id fun w =>
          { w with status := "busy".toList, current_task_id := some taskId,
                   lease_id := some leaseId, started_at := some now,
                   last_seen_at := some now }
        let doc2 := emit_event doc1 "task_dispatched".toList "info".toList
          (some taskId) (some worker.id)
        let doc3 := emit_event doc2 "worker_claimed".toList "info".toList
          (some taskId) (some worker.id)
        .ok ⟨doc3, ws1⟩

/-- A baseline task record used to build the concrete scenario inputs of
witnesses and counterexamples, with fields as `create_task` defaults them. -/
def defaultTask : Task :=
  { id := "task-001".toList,
    title := "t".toList,
    description := [],
    status := "pending".toList,
    priority := "medium".toList,
    task_type := "feature".toList,
    engine := "auto".toList,
    routed_engine := none,
    parent_task_id := none,
    sub_tasks := [],
    depends_on := [],
    plan_mode := false,
    plan_content := none,
    sla_tier := none,
    assigned_worker := none,
    review_status := none,
    review_engine := none,
    review_result := none,
    created_at := "2026-01-01T00:00:00Z".toList,
    started_at := none,
    completed_at := none,
    commit_ids := [],
    error_log := none,
    retry_count := 0,
    max_retries := 3,
    retry_after := none,
    attempts := [],
    timeline := [],
    blocked_reason := none,
    fallback_reason := none,
    review_round := 0,
    last_exit_code := none,
    _review_feedback := none }

/-- A baseline worker record as `build_workers` initializes one. -/
def defaultWorker : Worker :=
  { id := "worker-0".toList,
    engine := "claude".toList,
    status := "idle".toList,
    current_task_id := none,
    current_project_id := none,
    lease_id := none,
    pid := none,
    started_at := none,
    last_seen_at := none,
    total_tasks_completed := 0,
    cli_available := false,
    health := { last_heartbeat := none, consecutive_failures := 0, avg_task_duration_ms := 0 } }

/-- The dispatch sort key `(sla_rank, priority_rank, created_at)`. -/
def taskKey (t : Task) : Nat × Nat × Str := (_sla_rank t, prioRank t, t.created_at)

/-! ### Concrete scenario data for witnesses and counterexamples -/

def c7parent : Task :=
  { defaultTask with status := "blocked_by_subtasks".toList, sub_tasks := ["task-002".toList] }

def c7child : Task :=
  { defaultTask with id := "task-002".toList, status := "completed".toList,
                     parent_task_id := some ("task-001".toList) }

/-- A state reachable after a heartbeat timeout: the health loop cleared the
worker's lease and binding, but the task document still carries
`status=in_progress` and `assigned_worker=worker-0`. -/
def c2task : Task :=
  { defaultTask with task_type := "analysis".toList, status := "in_progress".toList,
                     assigned_worker := some ("worker-0".toList), started_at := some 1 }

def c2worker : Worker :=
  { defaultWorker with status := "busy".toList,
                       current_task_id := some ("task-001".toList), lease_id := none }

def c2state : SysState := ⟨⟨[c2task], []⟩, [c2worker]⟩

/-- A completed feature task whose preferred engine was `claude` but whose
only (most recent) attempt actually ran on the fallback engine `codex` — the
state the dispatch loop produces when no claude worker was idle. -/
def c1parent : Task :=
  { defaultTask with status := "completed".toList, task_type := "feature".toList,
                     routed_engine := some ("claude".toList), engine := "claude".toList,
                     attempts := [⟨1, "worker-3".toList, some ("codex".toList),
                       "lease-abc".toList, 0, some 1, "completed".toList, some 0, none, []⟩] }

/-- A pending codex-routed review task alongside a single idle claude
worker. -/
def c3state : SysState :=
  ⟨⟨[{ defaultTask with id := "task-002".toList, task_type := "review".toList,
                        routed_engine := some ("codex".toList) }], []⟩,
   [defaultWorker]⟩

/-! ## Theorems -/

/-! ### C9 — commit-hash extraction -/

theorem dedupFirst_sublist (l : List Str) : ∀ seen, (dedupFirst seen l).Sublist l := by
  induction l with
  | nil => intro seen; simp [dedupFirst]
  | cons x xs ih =>
    intro seen
    simp only [dedupFirst]
    split
    · exact (ih seen).cons x
    · exact (ih (x :: seen)).cons₂ x

theorem dedupFirst_nodup (l : List Str) :
    ∀ seen, (dedupFirst seen l).Nodup ∧ ∀ a ∈ dedupFirst seen l, a ∉ seen := by
  induction l with
  | nil => intro seen; simp [dedupFirst]
  | cons x xs ih =>
    intro seen
    simp only [dedupFirst]
    split
    · exact ih seen
    · rename_i hx
      obtain ⟨hnd, hns⟩ := ih (x :: seen)
      refine ⟨List.nodup_cons.mpr ⟨fun hmem => (hns x hmem) (List.mem_cons_self x seen), hnd⟩, ?_⟩
      intro a ha
      rcases List.mem_cons.mp ha with rfl | hmem
      · exact hx
      · intro has
        exact (hns a hmem) (List.mem_cons_of_mem _ has)

/-- C9 (counterexample).  The claim states that every returned hash matches
`[0-9a-f]{7,40}` *as found in the text*, and that hash-free output yields the
empty list.  On the stdout `"DEADBEEF"` the code first lowercases, so it
returns `"deadbeef"` — a string that does not occur in the text — although
the text itself contains no `[0-9a-f]{7,40}` match at all. -/
theorem C9_uppercase_hash_refutes_claim :
    _extract_commit_ids ("DEADBEEF".toList) = ["deadbeef".toList] ∧
    ¬ List.IsInfix ("deadbeef".toList) ("DEADBEEF".toList) ∧
    hexMatches ("DEADBEEF".toList) = [] := by
  refine ⟨by decide, by decide, by decide⟩

/-- C9 (amended).  `_extract_commit_ids` returns at most 20 strings, without
duplicates, forming a subsequence (hence: found in the lowercased text, in
order of first occurrence) of the `\b[0-9a-f]{7,40}\b` matches of the
**lowercased** text; when the lowercased text is empty or hash-free the
result is empty. -/
theorem C9_extract_commit_ids_amended (text : Str) :
    (_extract_commit_ids text).length ≤ 20 ∧
    (_extract_commit_ids text).Nodup ∧
    (_extract_commit_ids text).Sublist (hexMatches (lowerStr text)) ∧
    (hexMatches (lowerStr text) = [] → _extract_commit_ids text = []) := by
  unfold _extract_commit_ids
  split
  · simp
  · refine ⟨?_, ?_, ?_, ?_⟩
    · exact List.length_take_le _ _
    · exact ((dedupFirst_nodup _ []).1).sublist (List.take_sublist _ _)
    · exact (List.take_sublist _ _).trans (dedupFirst_sublist _ [])
    · intro h
      rw [h]
      simp [dedupFirst]

/-- Witness for C9: a concrete hash-free stdout yields the empty list, via
the amended theorem. -/
theorem C9_extract_commit_ids_amended_witness :
    hexMatches (lowerStr ("nothing to see".toList)) = [] ∧
    _extract_commit_ids ("nothing to see".toList) = [] := by
  have h := C9_extract_commit_ids_amended ("nothing to see".toList)
  exact ⟨by decide, h.2.2.2 (by decide)⟩

/-! ### C10 — plan decomposition bounds -/

/-- C10.  `_decompose_from_plan` always produces between 1 and 8 sub-task
inputs, and whenever no line of the plan survives marker stripping with
length at least 3 (in particular for an empty plan), it produces exactly one
sub-task whose description is the parent's title. -/
theorem C10_decompose_from_plan_bounds (task : Task) :
    (1 ≤ (_decompose_from_plan task).length ∧ (_decompose_from_plan task).length ≤ 8) ∧
    ((∀ l ∈ planLines task, (stripPy (stripListMarker l)).length < 3) →
      _decompose_from_plan task = [mkSubTaskInput task 1 task.title] ∧
      (mkSubTaskInput task 1 task.title).description = task.title) := by
  constructor
  · unfold _decompose_from_plan
    have hne : (if (planCandidates task).isEmpty then [task.title]
        else planCandidates task) ≠ [] := by
      split
      · simp
      · rename_i h
        simpa [List.isEmpty_iff] using h
    set c2 := if (planCandidates task).isEmpty then [task.title] else planCandidates task
      with hc2
    have hlen : (((c2.take 8).enum.map
        fun (p : Nat × Str) => mkSubTaskInput task (p.1 + 1) p.2).length) =
        min 8 c2.length := by
      simp [List.enum_length]
    constructor
    · rw [hlen]
      have : 1 ≤ c2.length := by
        cases hc : c2 with
        | nil => exact absurd hc hne
        | cons a l => simp
      omega
    · rw [hlen]
      omega
  · intro hshort
    have hempty : planCandidates task = [] := by
      unfold planCandidates
      rw [List.filter_eq_nil_iff]
      intro c hc
      obtain ⟨l, hl, rfl⟩ := List.mem_map.mp hc
      have := hshort l hl
      simp only [decide_eq_true_eq]
      omega
    constructor
    · unfold _decompose_from_plan
      rw [hempty]
      rfl
    · rfl

/-- Witness for C10: an approved plan whose lines are all trivial after
marker stripping yields exactly the single fallback sub-task. -/
theorem C10_decompose_from_plan_bounds_witness :
    _decompose_from_plan { defaultTask with plan_content := some "1. a\n- xy\n\n2) b".toList }
      = [mkSubTaskInput { defaultTask with plan_content := some "1. a\n- xy\n\n2) b".toList }
          1 ("t".toList)] := by
  have h := (C10_decompose_from_plan_bounds
    { defaultTask with plan_content := some "1. a\n- xy\n\n2) b".toList }).2 (by decide)
  exact h.1

/-! ### C4 — applying a review verdict to the parent -/

/-- C4 (counterexample).  The claim says `review_round` never exceeds
`MAX_REVIEW_ROUNDS` (3), but `_apply_review_to_parent` increments without an
upper guard: applied to a parent already at round 3 (reachable by
re-submitting a verdict through `POST /api/tasks/{id}/review-submit`, which
has no status guard) a critical issue drives the round to 4. -/
theorem C4_review_round_exceeds_max :
    (_apply_review_to_parent 0
        [Json.obj [("severity".toList, Json.str "critical".toList)]] []
        { defaultTask with status := "reviewing".toList, review_round := 3 }).review_round
      = 4 ∧ MAX_REVIEW_ROUNDS = 3 := by
  exact ⟨rfl, rfl⟩

/-- C4 (amended).  `_apply_review_to_parent` behaves as claimed — approval
when no issue is critical/high, otherwise a round increment followed by
either the pending reset with injected feedback or the `plan_review`
escalation at the cap — and `review_round` stays within `MAX_REVIEW_ROUNDS`
provided it was below the cap beforehand (which the claim's universal bound
wrongly omitted). -/
theorem C4_apply_review_to_parent_amended (now : Nat) (issues : List Json)
    (summary : Str) (parent : Task) :
    (issues.any isCriticalIssue = false →
      (_apply_review_to_parent now issues summary parent).review_status =
          some "approved".toList ∧
      (_apply_review_to_parent now issues summary parent).status = "completed".toList) ∧
    (issues.any isCriticalIssue = true →
      (_apply_review_to_parent now issues summary parent).review_round =
          parent.review_round + 1 ∧
      (parent.review_round + 1 ≥ MAX_REVIEW_ROUNDS →
        (_apply_review_to_parent now issues summary parent).status = "plan_review".toList ∧
        (_apply_review_to_parent now issues summary parent).blocked_reason =
            some "max_review_rounds_exceeded".toList ∧
        (_apply_review_to_parent now issues summary parent).review_status =
            some "changes_requested".toList) ∧
      (parent.review_round + 1 < MAX_REVIEW_ROUNDS →
        (_apply_review_to_parent now issues summary parent).status = "pending".toList ∧
        (_apply_review_to_parent now issues summary parent).assigned_worker = none ∧
        (_apply_review_to_parent now issues summary parent).started_at = none ∧
        (_apply_review_to_parent now issues summary parent)._review_feedback =
            some (mkFeedback summary issues) ∧
        (_apply_review_to_parent now issues summary parent).review_status =
            some "changes_requested".toList)) ∧
    (parent.review_round < MAX_REVIEW_ROUNDS →
      (_apply_review_to_parent now issues summary parent).review_round ≤
        MAX_REVIEW_ROUNDS) := by
  refine ⟨?_, ?_, ?_⟩
  · intro hnc
    simp only [_apply_review_to_parent, hnc, Bool.not_false, if_true, add_timeline]
    constructor
    · split <;> rfl
    · split
      · rfl
      · rename_i h
        simpa using h
  · intro hc
    simp only [_apply_review_to_parent, hc, Bool.not_true, Bool.false_eq_true, if_false]
    refine ⟨?_, ?_, ?_⟩
    · split <;> simp [add_timeline]
    · intro hcap
      rw [if_pos hcap]
      exact ⟨rfl, rfl, rfl⟩
    · intro hlt
      rw [if_neg (by omega)]
      exact ⟨rfl, rfl, rfl, rfl, rfl⟩
  · intro hlt
    by_cases hc : issues.any isCriticalIssue
    · simp only [_apply_review_to_parent, hc, Bool.not_true, Bool.false_eq_true, if_false]
      split <;> simp [add_timeline] <;> omega
    · have hnc : issues.any isCriticalIssue = false := by simpa using hc
      simp only [_apply_review_to_parent, hnc, Bool.not_false, if_true, add_timeline]
      split <;> exact le_of_lt hlt

/-- Witness for C4: a single `high` issue at round 0 resets the parent to
`pending` at round 1 with feedback injected, via the amended theorem. -/
theorem C4_apply_review_to_parent_amended_witness :
    (_apply_review_to_parent 9 [Json.obj [("severity".toList, Json.str "high".toList)]]
        ("Auth needed".toList)
        { defaultTask with status := "reviewing".toList }).review_round = 1 ∧
    (_apply_review_to_parent 9 [Json.obj [("severity".toList, Json.str "high".toList)]]
        ("Auth needed".toList)
        { defaultTask with status := "reviewing".toList }).status = "pending".toList := by
  have h := (C4_apply_review_to_parent_amended 9
    [Json.obj [("severity".toList, Json.str "high".toList)]] ("Auth needed".toList)
    { defaultTask with status := "reviewing".toList }).2.1 (by decide)
  exact ⟨h.1.trans (by decide), (h.2.2 (by decide)).1⟩

/-! ### C7 — parent roll-up -/

theorem rollupGo_keeps_completed (now : Nat) :
    ∀ f i (tasks : List Task) (j : Nat) (u : Task), tasks[j]? = some u →
      u.status = "completed".toList → (rollupGo now f i tasks)[j]? = some u := by
  intro f
  induction f with
  | zero => intro i tasks j u hj _; simpa [rollupGo] using hj
  | succ f ih =>
    intro i tasks j u hj hu
    cases htk : tasks[i]? with
    | none => simpa [rollupGo, htk] using hj
    | some tk =>
      simp only [rollupGo, htk]
      split
      · rename_i hcond
        apply ih (i + 1) _ j u ?_ hu
        by_cases hji : j = i
        · subst hji
          rw [htk] at hj
          injection hj with he
          have hcontr : u.status = "blocked_by_subtasks".toList := by
            rw [← he]
            simpa using hcond.1
          rw [hu] at hcontr
          exact absurd hcontr (by decide)
        · rw [List.getElem?_set_ne (by omega)]
          exact hj
      · exact ih (i + 1) _ j u hj hu

theorem find?_preserved :
    ∀ (orig cur : List Task), cur.map Task.id = orig.map Task.id →
      (∀ (j : Nat) (u : Task), orig[j]? = some u → u.status = "completed".toList →
        cur[j]? = some u) →
      ∀ q s, orig.find? (fun x => x.id == q) = some s →
        s.status = "completed".toList →
        cur.find? (fun x => x.id == q) = some s := by
  intro orig
  induction orig with
  | nil => intro cur _ _ q s hf; simp at hf
  | cons o os ih =>
    intro cur hmap hpres q s hf hs
    cases cur with
    | nil => simp at hmap
    | cons c cs =>
      simp only [List.map_cons, List.cons.injEq] at hmap
      obtain ⟨hid, hmap'⟩ := hmap
      by_cases hpo : (o.id == q) = true
      · simp only [List.find?, hpo] at hf
        injection hf with he
        subst he
        have hc0 : (c :: cs)[0]? = some o := hpres 0 o (by simp) hs
        simp only [List.getElem?_cons_zero, Option.some.injEq] at hc0
        have hpc : (c.id == q) = true := by rw [hc0]; exact hpo
        simp only [List.find?, hpc]
        rw [hc0]
      · have hpo' : (o.id == q) = false := by simpa using hpo
        simp only [List.find?, hpo'] at hf
        have hpc : (c.id == q) = false := by rw [hid]; exact hpo'
        simp only [List.find?, hpc]
        apply ih cs hmap' ?_ q s hf hs
        intro j u hj hu
        have := hpres (j + 1) u (by simpa using hj) hu
        simpa using this

theorem rollupGo_reach (now : Nat) (orig : List Task) (i : Nat) (t : Task)
    (ht : orig[i]? = some t)
    (hb : t.status = "blocked_by_subtasks".toList)
    (hne : t.sub_tasks ≠ [])
    (hall : ∀ sid ∈ t.sub_tasks, ∃ s, orig.find? (fun x => x.id == sid) = some s ∧
        s.status = "completed".toList) :
    ∀ f k cur, i < f + k → k ≤ i →
      cur.map Task.id = orig.map Task.id →
      (∀ j : Nat, k ≤ j → cur[j]? = orig[j]?) →
      (∀ (j : Nat) (u : Task), orig[j]? = some u → u.status = "completed".toList →
        cur[j]? = some u) →
      ∃ t', (rollupGo now f k cur)[i]? = some t' ∧ t'.status = "completed".toList ∧
        t'.id = t.id := by
  have hilen : i < orig.length := by
    by_contra hh
    rw [List.getElem?_eq_none (by omega)] at ht
    simp at ht
  intro f
  induction f with
  | zero => intro k cur hfk hki _ _ _; omega
  | succ f ih =>
    intro k cur hfk hki hmap hsuf hpres
    have hcl : cur.length = orig.length := by
      have := congrArg List.length hmap
      simpa using this
    have hcurk : cur[k]? = orig[k]? := hsuf k le_rfl
    obtain ⟨tk, htk⟩ : ∃ tk, cur[k]? = some tk := by
      rw [hcurk]
      exact ⟨orig.get ⟨k, by omega⟩, List.getElem?_eq_getElem (by omega)⟩
    by_cases hki' : k = i
    · subst hki'
      have htkt : tk = t := by
        rw [hcurk, ht] at htk
        injection htk with he
        exact he.symm
      subst htkt
      have hc1 : (tk.status == "blocked_by_subtasks".toList) = true := by simp [hb]
      have hc2 : _all_subtasks_completed tk cur = true := by
        unfold _all_subtasks_completed
        rw [if_neg (by simpa [List.isEmpty_iff] using hne)]
        rw [List.all_eq_true]
        intro sid hsid
        obtain ⟨s, hfind, hst⟩ := hall sid hsid
        rw [find?_preserved orig cur hmap hpres sid s hfind hst]
        simp [hst]
      simp only [rollupGo, htk]
      rw [if_pos ⟨hc1, hc2⟩]
      have hset : (cur.set k (rollupComplete now tk))[k]? = some (rollupComplete now tk) :=
        List.getElem?_set_eq (by omega)
      exact ⟨rollupComplete now tk,
        rollupGo_keeps_completed now f (k + 1) _ k _ hset rfl, rfl, rfl⟩
    · have hklt : k < i := by omega
      simp only [rollupGo, htk]
      split
      · rename_i hcond
        have hmapset : (cur.set k (rollupComplete now tk)).map Task.id = cur.map Task.id := by
          apply List.ext_getElem?
          intro n
          by_cases hnk : n = k
          · subst hnk
            rw [List.map_set]
            rw [List.getElem?_set_eq (by simpa using by omega)]
            rw [List.getElem?_map, htk]
            rfl
          · rw [List.map_set, List.getElem?_set_ne (by omega), List.getElem?_map]
        apply ih (k + 1) (cur.set k (rollupComplete now tk)) (by omega) (by omega)
          (hmapset.trans hmap) ?_ ?_
        · intro j hj
          rw [List.getElem?_set_ne (by omega)]
          exact hsuf j (by omega)
        · intro j u hju hu
          by_cases hjk : j = k
          · subst hjk
            exfalso
            have hcu : cur[j]? = some u := hpres j u hju hu
            rw [htk] at hcu
            injection hcu with he
            have hcontr : u.status = "blocked_by_subtasks".toList := by
              rw [← he]
              simpa using hcond.1
            rw [hu] at hcontr
            exact absurd hcontr (by decide)
          · rw [List.getElem?_set_ne (by omega)]
            exact hpres j u hju hu
      · apply ih (k + 1) cur (by omega) (by omega) hmap ?_ hpres
        intro j hj
        exact hsuf j (by omega)

/-- C7 (counterexample).  The claim calls for the roll-up to complete every
`blocked_by_subtasks` task all of whose children are completed, explicitly
including an empty `sub_tasks` list; `_all_subtasks_completed` returns
`False` for an empty list, so such a parent (producible by `POST
/api/tasks/{id}/decompose` with an empty `sub_tasks` body) stays blocked
forever, which also violates the claimed iff (it has no incomplete child). -/
theorem C7_empty_subtasks_refutes_claim :
    ((_refresh_parent_rollup 5
        ⟨[{ defaultTask with status := "blocked_by_subtasks".toList }], []⟩).tasks.map
        Task.status) = ["blocked_by_subtasks".toList] ∧
    ({ defaultTask with status := "blocked_by_subtasks".toList } : Task).sub_tasks = [] := by
  exact ⟨rfl, rfl⟩

/-- C7 (amended).  The roll-up pass completes every `blocked_by_subtasks`
task that has a **non-empty** `sub_tasks` list all of whose children exist
and are `completed`; a blocked task with an empty children list is left
blocked (previous theorem), so the claimed iff holds only for parents with at
least one recorded child. -/
theorem C7_rollup_completes_parents (now : Nat) (doc : TaskDoc) (i : Nat) (t : Task)
    (ht : doc.tasks[i]? = some t)
    (hb : t.status = "blocked_by_subtasks".toList)
    (hne : t.sub_tasks ≠ [])
    (hall : ∀ sid ∈ t.sub_tasks, ∃ s, doc.tasks.find? (fun x => x.id == sid) = some s ∧
        s.status = "completed".toList) :
    ∃ t', (_refresh_parent_rollup now doc).tasks[i]? = some t' ∧
      t'.status = "completed".toList ∧ t'.id = t.id := by
  have hilen : i < doc.tasks.length := by
    by_contra hh
    rw [List.getElem?_eq_none (by omega)] at ht
    simp at ht
  exact rollupGo_reach now doc.tasks i t ht hb hne hall (doc.tasks.length + 1) 0 doc.tasks
    (by omega) (Nat.zero_le i) rfl (fun _ _ => rfl) (fun _ _ h _ => h)

/-- Witness for C7: a blocked parent whose single child is completed rolls
up to `completed`, via the amended theorem. -/
theorem C7_rollup_completes_parents_witness :
    ∃ t', (_refresh_parent_rollup 7 ⟨[c7parent, c7child], []⟩).tasks[0]? = some t' ∧
      t'.status = "completed".toList ∧ t'.id = c7parent.id := by
  apply C7_rollup_completes_parents 7 ⟨[c7parent, c7child], []⟩ 0 c7parent rfl rfl (by decide)
  intro sid hsid
  have hsid' : sid = "task-002".toList := by simpa [c7parent] using hsid
  subst hsid'
  exact ⟨c7child, rfl, rfl⟩

/-! ### C2 — lease-guarded completion and failure -/

/-- C2 (counterexample).  The claim says a supplied `lease_id` differing from
the worker's current lease makes the submission a silent no-op.  Here the
worker's current lease is `None` and the supplied `lease-zzz` differs from
it, yet the completion goes through: the task flips to `completed`.  The
guard `if lease_id and worker.get("lease_id") and worker["lease_id"] !=
lease_id` skips the comparison whenever the stored lease is falsy. -/
theorem C2_stale_lease_refutes_claim :
    ((_complete_task_internal 2 [] ("task-001".toList) ("worker-0".toList)
        (some ("lease-zzz".toList)) [] none c2state).map fun s =>
          s.data.tasks.map Task.status) = some ["completed".toList] ∧
    c2state.data.tasks.map Task.status = ["in_progress".toList] ∧
    c2state.workers.map Worker.lease_id = [none] ∧
    c2state.data.tasks.map Task.assigned_worker = [some ("worker-0".toList)] := by
  refine ⟨by decide, by decide, by decide, by decide⟩

/-- C2 (amended).  A completion or failure submission is a silent no-op —
task document, events and worker state all unchanged — whenever the task's
`assigned_worker` differs from the submitting worker, or a (truthy) lease id
is supplied **while the worker currently holds a lease** that differs from
it.  (The claim's stronger version without the held-lease condition fails,
see the counterexample.) -/
theorem C2_mismatch_is_noop (now : Nat) (nowS : Str) (taskId workerId : Str)
    (leaseId : Option Str) (commitIds : List Str) (summary : Option Str)
    (errorLog : Str) (exitCode : Option Int) (st : SysState) (task : Task) (worker : Worker)
    (htask : find_task st.data taskId = some task)
    (hworker : _worker_by_id st.workers workerId = some worker)
    (hmis : task.assigned_worker ≠ some workerId ∨
      (truthy leaseId ∧ truthy worker.lease_id ∧ worker.lease_id ≠ leaseId)) :
    _complete_task_internal now nowS taskId workerId leaseId commitIds summary st = some st ∧
    _fail_task_internal now taskId workerId leaseId errorLog exitCode st = st := by
  simp only [_complete_task_internal, _fail_task_internal, htask, hworker]
  rcases hmis with h | h
  · rw [if_pos h, if_pos h]
    exact ⟨rfl, rfl⟩
  · by_cases ha : task.assigned_worker = some workerId
    · rw [if_neg (not_not_intro ha), if_neg (not_not_intro ha), if_pos h, if_pos h]
      exact ⟨rfl, rfl⟩
    · rw [if_pos ha, if_pos ha]
      exact ⟨rfl, rfl⟩

/-- Witness for C2: a submission from a worker the task is not assigned to
leaves the state untouched, via the amended theorem. -/
theorem C2_mismatch_is_noop_witness :
    _complete_task_internal 3 [] ("task-001".toList) ("worker-0".toList) none [] none
      ⟨⟨[{ defaultTask with status := "in_progress".toList }], []⟩, [defaultWorker]⟩
      = some ⟨⟨[{ defaultTask with status := "in_progress".toList }], []⟩, [defaultWorker]⟩ ∧
    _fail_task_internal 3 ("task-001".toList) ("worker-0".toList) none ("x".toList) (some 1)
      ⟨⟨[{ defaultTask with status := "in_progress".toList }], []⟩, [defaultWorker]⟩
      = ⟨⟨[{ defaultTask with status := "in_progress".toList }], []⟩, [defaultWorker]⟩ :=
  C2_mismatch_is_noop 3 [] ("task-001".toList) ("worker-0".toList) none [] none ("x".toList)
    (some 1) _ _ _ rfl rfl (Or.inl (by decide))

/-! ### C6 — auto-retry scheduling on failure -/

theorem _complete_attempt_id (now : Nat) (t : Task) (success : Bool) (ec : Option Int)
    (el : Option Str) (cids : List Str) :
    (_complete_attempt now t success ec el cids).id = t.id := by
  unfold _complete_attempt
  split <;> rfl

theorem find_task_emit_event (doc : TaskDoc) (et lv : Str) (ti wi : Option Str) (m : Str)
    (q : Str) : find_task (emit_event doc et lv ti wi m) q = find_task doc q := rfl

theorem find_task_updateTask (doc : TaskDoc) (tid : Str) (f : Task → Task)
    (hid : ∀ t, (f t).id = t.id) :
    find_task (updateTask doc tid f) tid = (find_task doc tid).map f := by
  unfold find_task updateTask
  rw [List.find?_map]
  have hpred : ((fun t : Task => t.id == tid) ∘ fun t => if t.id == tid then f t else t)
      = fun t : Task => t.id == tid := by
    funext t
    by_cases h : (t.id == tid) = true
    · simp only [Function.comp_apply]
      rw [if_pos h, hid t]
    · simp only [Function.comp_apply]
      rw [if_neg h]
  rw [hpred]
  cases hfind : doc.tasks.find? (fun t : Task => t.id == tid) with
  | none => rfl
  | some a =>
    have ha := List.find?_some hfind
    show some (if a.id == tid then f a else a) = some (f a)
    rw [if_pos ha]

/-- C6.  On an accepted failure submission, with one more retry available the
task returns to `pending` with `assigned_worker` and `started_at` cleared and
`retry_after = now + RATE_LIMIT_RETRY_DELAY` when the error log carries a
rate-limit signature (`AUTO_RETRY_DELAY` otherwise); at the cap the task
becomes `failed`. -/
theorem C6_fail_retry_policy (now : Nat) (taskId workerId : Str) (leaseId : Option Str)
    (errorLog : Str) (exitCode : Option Int) (st : SysState) (task : Task) (worker : Worker)
    (htask : find_task st.data taskId = some task)
    (hworker : _worker_by_id st.workers workerId = some worker)
    (hassigned : task.assigned_worker = some workerId)
    (hlease : ¬(truthy leaseId ∧ truthy worker.lease_id ∧ worker.lease_id ≠ leaseId)) :
    ∃ t', find_task (_fail_task_internal now taskId workerId leaseId errorLog exitCode
        st).data taskId = some t' ∧
      (task.retry_count + 1 < task.max_retries →
        t'.status = "pending".toList ∧ t'.assigned_worker = none ∧ t'.started_at = none ∧
        t'.retry_after = some (now +
          (if isRateLimited errorLog then RATE_LIMIT_RETRY_DELAY_SEC
           else AUTO_RETRY_DELAY_SEC))) ∧
      (task.retry_count + 1 ≥ task.max_retries → t'.status = "failed".toList) := by
  simp only [_fail_task_internal, htask, hworker]
  rw [if_neg (not_not_intro hassigned), if_neg hlease]
  have hid1 : ∀ t : Task,
      (_complete_attempt now
        { t with error_log := some errorLog, last_exit_code := exitCode,
                 retry_count := min (task.retry_count + 1) task.max_retries }
        false exitCode (some errorLog) []).id = t.id := by
    intro t
    rw [_complete_attempt_id]
  have hid2 : ∀ t : Task,
      (add_timeline now
        { t with status := "pending".toList, assigned_worker := none, started_at := none,
                 retry_after := some (now +
                   (if isRateLimited errorLog then RATE_LIMIT_RETRY_DELAY_SEC
                    else AUTO_RETRY_DELAY_SEC)) }
        "auto_retry_scheduled".toList).id = t.id := fun _ => rfl
  have hid3 : ∀ t : Task,
      (add_timeline now { t with status := "failed".toList } "task_failed".toList).id = t.id :=
    fun _ => rfl
  by_cases hr : task.retry_count + 1 < task.max_retries
  · rw [if_pos hr]
    by_cases hc : worker.health.consecutive_failures + 1 ≥ 3
    · rw [if_pos hc]
      rw [find_task_emit_event, find_task_emit_event,
        find_task_updateTask _ _ _ hid2, find_task_updateTask _ _ _ hid1, htask]
      refine ⟨_, rfl, fun _ => ⟨rfl, rfl, rfl, rfl⟩, fun hge => absurd hge (by omega)⟩
    · rw [if_neg hc]
      rw [find_task_emit_event,
        find_task_updateTask _ _ _ hid2, find_task_updateTask _ _ _ hid1, htask]
      refine ⟨_, rfl, fun _ => ⟨rfl, rfl, rfl, rfl⟩, fun hge => absurd hge (by omega)⟩
  · rw [if_neg hr]
    by_cases hc : worker.health.consecutive_failures + 1 ≥ 3
    · rw [if_pos hc]
      rw [find_task_emit_event, find_task_emit_event,
        find_task_updateTask _ _ _ hid3, find_task_updateTask _ _ _ hid1, htask]
      refine ⟨_, rfl, fun hlt => absurd hlt hr, fun _ => rfl⟩
    · rw [if_neg hc]
      rw [find_task_emit_event,
        find_task_updateTask _ _ _ hid3, find_task_updateTask _ _ _ hid1, htask]
      refine ⟨_, rfl, fun hlt => absurd hlt hr, fun _ => rfl⟩

/-- Witness for C6: a rate-limited first failure reschedules the task with
the long delay, via the theorem. -/
theorem C6_fail_retry_policy_witness :
    ∃ t', find_task (_fail_task_internal 100 ("task-001".toList) ("worker-0".toList) none
        ("boom rate_limit hit".toList) (some 1)
        ⟨⟨[{ defaultTask with status := "in_progress".toList,
                               assigned_worker := some ("worker-0".toList) }], []⟩,
         [{ defaultWorker with status := "busy".toList }]⟩).data
        ("task-001".toList) = some t' ∧
      t'.status = "pending".toList ∧
      t'.retry_after = some (100 + RATE_LIMIT_RETRY_DELAY_SEC) := by
  obtain ⟨t', hf, hlt, _⟩ := C6_fail_retry_policy 100 ("task-001".toList) ("worker-0".toList)
    none ("boom rate_limit hit".toList) (some 1)
    ⟨⟨[{ defaultTask with status := "in_progress".toList,
                           assigned_worker := some ("worker-0".toList) }], []⟩,
     [{ defaultWorker with status := "busy".toList }]⟩ _ _ rfl rfl rfl (by decide)
  refine ⟨t', hf, (hlt (by decide)).1, ?_⟩
  have h4 := (hlt (by decide)).2.2.2
  rw [h4]
  decide

/-! ### C1 — adversarial review engine selection -/

/-- C1 (code bug evidence).  The claim (and spec invariant I4) requires the
review child's `routed_engine` to be the opposite of the engine recorded in
the parent's most recent attempt.  `maybe_trigger_adversarial_review`
computes it from `routed_engine or engine` instead, so for a parent that
actually executed on the fallback engine the review child is routed to that
**same** engine — codex reviews codex's own work. -/
theorem C1_review_engine_ignores_actual_engine :
    ((maybe_trigger_adversarial_review 2 ("2026-01-02T00:00:00Z".toList) ("task-001".toList)
        ⟨[c1parent], []⟩).1.map fun r => (r.routed_engine, r.review_engine, r.parent_task_id))
      = some (some ("codex".toList), some ("codex".toList), some ("task-001".toList)) ∧
    (c1parent.attempts.getLast?).map Attempt.engine = some (some ("codex".toList)) := by
  refine ⟨by decide, by decide⟩

/-! ### C3 — review tasks and manual dispatch fallback -/

/-- C3 (code bug evidence).  The claim (and spec §4.3 / P3) says a review
task is never assigned cross-engine in any dispatch path.  The manual
dispatch endpoint has no review exemption: with no idle codex worker it
falls back and assigns the codex-routed review task to the idle claude
worker, recording `manual_dispatch_fallback_claude`. -/
theorem C3_manual_dispatch_review_cross_engine :
    (((dispatch_task 5 ("lease-1".toList) ⟨true, true⟩ ("task-002".toList)
        c3state).toOption).map fun st' => st'.data.tasks.map Task.assigned_worker)
      = some [some ("worker-0".toList)] ∧
    (((dispatch_task 5 ("lease-1".toList) ⟨true, true⟩ ("task-002".toList)
        c3state).toOption).map fun st' => st'.data.tasks.map Task.fallback_reason)
      = some [some ("manual_dispatch_fallback_claude".toList)] ∧
    (((dispatch_task 5 ("lease-1".toList) ⟨true, true⟩ ("task-002".toList)
        c3state).toOption).map fun st' => st'.data.tasks.map Task.status)
      = some ["in_progress".toList] ∧
    (((dispatch_task 5 ("lease-1".toList) ⟨true, true⟩ ("task-002".toList)
        c3state).toOption).map fun st' => st'.workers.map Worker.current_task_id)
      = some [some ("task-002".toList)] ∧
    c3state.data.tasks.map Task.task_type = ["review".toList] ∧
    c3state.data.tasks.map Task.routed_engine = [some ("codex".toList)] ∧
    c3state.workers.map Worker.engine = ["claude".toList] := by
  refine ⟨by decide, by decide, by decide, by decide, by decide, by decide, by decide⟩

/-! ### C5 — unparseable review output -/

theorem find_task_updateTask_any (doc : TaskDoc) (tid : Str) (f : Task → Task) (q : Str)
    (hid : ∀ t, (f t).id = t.id) :
    find_task (updateTask doc tid f) q =
      (find_task doc q).map fun t => if t.id == tid then f t else t := by
  unfold find_task updateTask
  rw [List.find?_map]
  have hpred : ((fun t : Task => t.id == q) ∘ fun t => if t.id == tid then f t else t)
      = fun t : Task => t.id == q := by
    funext t
    by_cases h : (t.id == tid) = true
    · simp only [Function.comp_apply]
      rw [if_pos h, hid t]
    · simp only [Function.comp_apply]
      rw [if_neg h]
  rw [hpred]

/-- C5.  When the reviewer's stdout has no fenced ```json block, or its last
fenced block is not valid JSON, `_handle_review_completion` escalates the
parent to `plan_review` with `blocked_reason = review_parse_failed` and
`review_status = changes_requested` — never `approved`.  Moreover parsing
depends only on the **last** fenced block: any two outputs with the same
last block parse identically. -/
theorem C5_unparseable_review_escalates (now : Nat) (doc : TaskDoc) (rtId : Str)
    (text : Str) (rt : Task) (pid : Str)
    (hrt : find_task doc rtId = some rt)
    (hpid : rt.parent_task_id = some pid)
    (hparent : (find_task doc pid).isSome = true)
    (hbad : findBlocks text = [] ∨
      ∃ b, (findBlocks text).getLast? = some b ∧ jsonLoads b = none) :
    (∃ doc', _handle_review_completion now rtId text doc = some doc' ∧
      ∃ p', find_task doc' pid = some p' ∧
        p'.status = "plan_review".toList ∧
        p'.blocked_reason = some ("review_parse_failed".toList) ∧
        p'.review_status = some ("changes_requested".toList)) ∧
    (∀ text2 : Str, (findBlocks text).getLast? = (findBlocks text2).getLast? →
      _parse_review_json text = _parse_review_json text2) := by
  have hparse : _parse_review_json text = none := by
    unfold _parse_review_json
    rcases hbad with h | ⟨b, hb, hj⟩
    · rw [h]
      rfl
    · rw [hb]
      simp [hj]
  constructor
  · have hidrt : ∀ t : Task,
        ({ t with
            review_result := some ⟨Json.arr [], Json.str "parse_failed".toList,
              some (text.take 2000)⟩,
            review_status := some "completed".toList } : Task).id = t.id := fun _ => rfl
    have hidesc : ∀ p : Task,
        (add_timeline now
          { p with review_status := some "changes_requested".toList,
                   status := "plan_review".toList,
                   blocked_reason := some "review_parse_failed".toList }
          "review_parse_failed".toList).id = p.id := fun _ => rfl
    simp only [_handle_review_completion, hparse, hrt, hpid]
    have h1 := find_task_updateTask_any doc rtId
      (fun t =>
        { t with
            review_result := some ⟨Json.arr [], Json.str "parse_failed".toList,
              some (text.take 2000)⟩,
            review_status := some "completed".toList }) pid hidrt
    obtain ⟨p0, hp0⟩ := Option.isSome_iff_exists.mp hparent
    rw [hp0] at h1
    rw [h1]
    simp only [Option.map_some]
    refine ⟨_, rfl, ?_⟩
    rw [find_task_updateTask _ _ _ hidesc, h1]
    simp only [Option.map_some]
    exact ⟨_, rfl, rfl, rfl, rfl⟩
  · intro text2 hsame
    unfold _parse_review_json
    rw [hsame]

/-- A completed review child and its reviewed parent, for the C5 witness. -/
def c5review : Task :=
  { defaultTask with id := "task-002".toList, task_type := "review".toList,
                     parent_task_id := some ("task-001".toList),
                     status := "completed".toList }

def c5doc : TaskDoc := ⟨[c5review, { defaultTask with status := "reviewing".toList }], []⟩

/-- Witness for C5: reviewer stdout with no fenced block escalates the
parent, via the theorem. -/
theorem C5_unparseable_review_escalates_witness :
    ∃ doc', _handle_review_completion 4 ("task-002".toList)
        ("Just some plain text review output with no JSON.".toList) c5doc = some doc' ∧
      ∃ p', find_task doc' ("task-001".toList) = some p' ∧
        p'.status = "plan_review".toList ∧
        p'.blocked_reason = some ("review_parse_failed".toList) ∧
        p'.review_status = some ("changes_requested".toList) :=
  (C5_unparseable_review_escalates 4 c5doc ("task-002".toList)
    ("Just some plain text review output with no JSON.".toList) c5review
    ("task-001".toList) rfl rfl rfl (Or.inl (by decide))).1

/-! ### C8 — dispatch candidate ordering -/

theorem strLtB_cons (a b : Char) (as bs : Str) :
    strLtB (a :: as) (b :: bs) =
      if a < b then true else if b < a then false else strLtB as bs := rfl

theorem strLtB_trans : ∀ s t u : Str, strLtB s t = true → strLtB t u = true →
    strLtB s u = true := by
  intro s
  induction s with
  | nil =>
    intro t u hst htu
    cases t with
    | nil => simp [strLtB] at hst
    | cons b bs =>
      cases u with
      | nil => simp [strLtB] at htu
      | cons c cs => simp [strLtB]
  | cons a as ih =>
    intro t u hst htu
    cases t with
    | nil => simp [strLtB] at hst
    | cons b bs =>
      cases u with
      | nil => simp [strLtB] at htu
      | cons c cs =>
        rw [strLtB_cons] at hst htu ⊢
        by_cases hab : a < b
        · by_cases hbc : b < c
          · rw [if_pos (lt_trans hab hbc)]
          · rw [if_neg hbc] at htu
            by_cases hcb : c < b
            · rw [if_pos hcb] at htu
              exact absurd htu (by simp)
            · have hbceq : b = c := le_antisymm (not_lt.mp hcb) (not_lt.mp hbc)
              rw [if_pos (hbceq ▸ hab)]
        · rw [if_neg hab] at hst
          by_cases hba : b < a
          · rw [if_pos hba] at hst
            exact absurd hst (by simp)
          · have habeq : a = b := le_antisymm (not_lt.mp hba) (not_lt.mp hab)
            subst habeq
            rw [if_neg (lt_irrefl a)] at hst
            by_cases hac : a < c
            · rw [if_pos hac]
            · rw [if_neg hac] at htu ⊢
              by_cases hca : c < a
              · rw [if_pos hca] at htu
                exact absurd htu (by simp)
              · rw [if_neg hca] at htu ⊢
                exact ih bs cs hst htu

theorem strLtB_total_eq : ∀ s t : Str, strLtB s t = true ∨ strLtB t s = true ∨ s = t := by
  intro s
  induction s with
  | nil =>
    intro t
    cases t with
    | nil => exact Or.inr (Or.inr rfl)
    | cons b bs => exact Or.inl (by simp [strLtB])
  | cons a as ih =>
    intro t
    cases t with
    | nil => exact Or.inr (Or.inl (by simp [strLtB]))
    | cons b bs =>
      rcases lt_trichotomy a b with hab | hab | hab
      · exact Or.inl (by rw [strLtB_cons, if_pos hab])
      · subst hab
        rcases ih bs with h | h | h
        · exact Or.inl (by rw [strLtB_cons, if_neg (lt_irrefl a), if_neg (lt_irrefl a)]; exact h)
        · exact Or.inr (Or.inl
            (by rw [strLtB_cons, if_neg (lt_irrefl a), if_neg (lt_irrefl a)]; exact h))
        · exact Or.inr (Or.inr (by rw [h]))
      · exact Or.inr (Or.inl (by rw [strLtB_cons, if_pos hab]))

theorem keyLeB_iff (a b : Task) :
    keyLeB a b = true ↔
      (_sla_rank a < _sla_rank b ∨
        (_sla_rank a = _sla_rank b ∧
          (prioRank a < prioRank b ∨
            (prioRank a = prioRank b ∧
              (strLtB a.created_at b.created_at = true ∨ a.created_at = b.created_at))))) := by
  unfold keyLeB
  by_cases h1 : _sla_rank a = _sla_rank b
  · rw [if_neg (not_not_intro h1)]
    by_cases h2 : prioRank a = prioRank b
    · rw [if_neg (not_not_intro h2)]
      simp [h1, h2]
    · rw [if_pos h2]
      simp only [decide_eq_true_eq]
      constructor
      · intro h
        exact Or.inr ⟨h1, Or.inl h⟩
      · rintro (h | ⟨-, h | ⟨he, -⟩⟩)
        · omega
        · exact h
        · exact absurd he h2
  · rw [if_pos h1]
    simp only [decide_eq_true_eq]
    constructor
    · intro h
      exact Or.inl h
    · rintro (h | ⟨he, -⟩)
      · exact h
      · exact absurd he h1

theorem keyLeB_of_key_eq {a b : Task} (h : taskKey a = taskKey b) : keyLeB a b = true := by
  unfold taskKey at h
  obtain ⟨h1, h2, h3⟩ : _sla_rank a = _sla_rank b ∧ prioRank a = prioRank b ∧
      a.created_at = b.created_at := by
    refine ⟨congrArg Prod.fst h, ?_, ?_⟩
    · exact congrArg (fun p => p.2.1) h
    · exact congrArg (fun p => p.2.2) h
  exact (keyLeB_iff a b).mpr (Or.inr ⟨h1, Or.inr ⟨h2, Or.inr h3⟩⟩)

theorem keyLeB_total (a b : Task) : keyLeB a b = true ∨ keyLeB b a = true := by
  rcases Nat.lt_trichotomy (_sla_rank a) (_sla_rank b) with h1 | h1 | h1
  · exact Or.inl ((keyLeB_iff a b).mpr (Or.inl h1))
  · rcases Nat.lt_trichotomy (prioRank a) (prioRank b) with h2 | h2 | h2
    · exact Or.inl ((keyLeB_iff a b).mpr (Or.inr ⟨h1, Or.inl h2⟩))
    · rcases strLtB_total_eq a.created_at b.created_at with h3 | h3 | h3
      · exact Or.inl ((keyLeB_iff a b).mpr (Or.inr ⟨h1, Or.inr ⟨h2, Or.inl h3⟩⟩))
      · exact Or.inr ((keyLeB_iff b a).mpr (Or.inr ⟨h1.symm, Or.inr ⟨h2.symm, Or.inl h3⟩⟩))
      · exact Or.inl ((keyLeB_iff a b).mpr (Or.inr ⟨h1, Or.inr ⟨h2, Or.inr h3⟩⟩))
    · exact Or.inr ((keyLeB_iff b a).mpr (Or.inr ⟨h1.symm, Or.inl h2⟩))
  · exact Or.inr ((keyLeB_iff b a).mpr (Or.inl h1))

theorem keyLeB_trans {a b c : Task} (hab : keyLeB a b = true) (hbc : keyLeB b c = true) :
    keyLeB a c = true := by
  rw [keyLeB_iff] at hab hbc ⊢
  rcases hab with h1 | ⟨h1, hab⟩
  · rcases hbc with h2 | ⟨h2, -⟩
    · exact Or.inl (lt_trans h1 h2)
    · exact Or.inl (h2 ▸ h1)
  · rcases hbc with h2 | ⟨h2, hbc⟩
    · exact Or.inl (h1 ▸ h2)
    · refine Or.inr ⟨h1.trans h2, ?_⟩
      rcases hab with h3 | ⟨h3, hab⟩
      · rcases hbc with h4 | ⟨h4, -⟩
        · exact Or.inl (lt_trans h3 h4)
        · exact Or.inl (h4 ▸ h3)
      · rcases hbc with h4 | ⟨h4, hbc⟩
        · exact Or.inl (h3 ▸ h4)
        · refine Or.inr ⟨h3.trans h4, ?_⟩
          rcases hab with h5 | h5
          · rcases hbc with h6 | h6
            · exact Or.inl (strLtB_trans _ _ _ h5 h6)
            · exact Or.inl (h6 ▸ h5)
          · rcases hbc with h6 | h6
            · exact Or.inl (h5 ▸ h6)
            · exact Or.inr (h5.trans h6)

theorem mem_pyInsert (x a : Task) : ∀ l : List Task, x ∈ pyInsert a l ↔ x = a ∨ x ∈ l := by
  intro l
  induction l with
  | nil => simp [pyInsert]
  | cons b l ih =>
    simp only [pyInsert]
    split
    · simp
    · simp only [List.mem_cons, ih]
      tauto

theorem pairwise_pyInsert (a : Task) :
    ∀ l : List Task, List.Pairwise (fun x y => keyLeB x y = true) l →
      List.Pairwise (fun x y => keyLeB x y = true) (pyInsert a l) := by
  intro l
  induction l with
  | nil => intro _; simp [pyInsert]
  | cons b l ih =>
    intro h
    rw [List.pairwise_cons] at h
    simp only [pyInsert]
    split
    · rename_i hle
      rw [List.pairwise_cons]
      refine ⟨?_, List.pairwise_cons.mpr h⟩
      intro y hy
      rcases List.mem_cons.mp hy with rfl | hyl
      · exact hle
      · exact keyLeB_trans hle (h.1 y hyl)
    · rename_i hnle
      have hba : keyLeB b a = true := by
        rcases keyLeB_total a b with h' | h'
        · exact absurd h' hnle
        · exact h'
      rw [List.pairwise_cons]
      refine ⟨?_, ih h.2⟩
      intro y hy
      rcases (mem_pyInsert y a l).mp hy with rfl | hyl
      · exact hba
      · exact h.1 y hyl

theorem pairwise_dispatchSort :
    ∀ l : List Task, List.Pairwise (fun x y => keyLeB x y = true) (dispatchSort l) := by
  intro l
  induction l with
  | nil => simp [dispatchSort]
  | cons a l ih => exact pairwise_pyInsert a (dispatchSort l) ih

theorem filter_cons_eq (p : Task → Bool) (x : Task) (xs : List Task) :
    (x :: xs).filter p = if p x = true then x :: xs.filter p else xs.filter p := by
  cases hp : p x <;> simp [hp]

/-- Stability of the insertion step: inserting an element permutes it past
strictly smaller keys only, so the key-class subsequences are those of
prepending. -/
theorem filter_key_pyInsert (a : Task) (k : Nat × Nat × Str) :
    ∀ l : List Task, (pyInsert a l).filter (fun t => taskKey t == k) =
      (a :: l).filter (fun t => taskKey t == k) := by
  intro l
  induction l with
  | nil => rfl
  | cons b l ih =>
    simp only [pyInsert]
    split
    · rfl
    · rename_i hnle
      by_cases hpb : (taskKey b == k) = true
      · by_cases hpa : (taskKey a == k) = true
        · exfalso
          have hk : taskKey a = taskKey b := by
            rw [beq_iff_eq.mp hpa, beq_iff_eq.mp hpb]
          exact hnle (keyLeB_of_key_eq hk)
        · simp [filter_cons_eq, ih, hpb, hpa]
      · by_cases hpa : (taskKey a == k) = true
        · simp [filter_cons_eq, ih, hpb, hpa]
        · simp [filter_cons_eq, ih, hpb, hpa]

/-- Stability of the whole sort: every key class keeps its pre-sort order. -/
theorem filter_key_dispatchSort (k : Nat × Nat × Str) :
    ∀ l : List Task, (dispatchSort l).filter (fun t => taskKey t == k) =
      l.filter (fun t => taskKey t == k) := by
  intro l
  induction l with
  | nil => rfl
  | cons a l ih =>
    show (pyInsert a (dispatchSort l)).filter _ = _
    rw [filter_key_pyInsert, filter_cons_eq]
    simp only [ih]
    rw [filter_cons_eq]

/-- C8 (counterexample).  Two candidates with identical
`(sla_tier, priority, created_at)` keys: `create_task` inserts new tasks at
the head of the document, so the tasks list reads `[task-002, task-001]`,
and the stable sort keeps that order — the dispatch queue favors the
**higher** (more recently created) id, not the lower one. -/
def c8doc : TaskDoc :=
  ⟨[{ defaultTask with id := "task-002".toList, routed_engine := some ("claude".toList) },
    { defaultTask with id := "task-001".toList, routed_engine := some ("claude".toList) }],
   []⟩

theorem C8_tie_break_prefers_newer :
    (dispatchCandidates 0 ⟨true, true⟩ c8doc).map Task.id =
      ["task-002".toList, "task-001".toList] ∧
    c8doc.tasks.map taskKey = [(2, 1, "2026-01-01T00:00:00Z".toList),
      (2, 1, "2026-01-01T00:00:00Z".toList)] := by
  refine ⟨by decide, by decide⟩

/-- C8 (amended).  The dispatch queue is sorted ascending by
`(sla_rank, priority_rank, created_at)` with `urgent=0 < expedite=1 <
standard=2` and `high=0 < medium=1 < low=2`; the key comparison is total;
and the sort is stable: within every key class the queue preserves the
candidate list's document order, which for head-inserted creations means
ties are dispatched in favor of the most recently created (higher) task id,
not the lower one. -/
theorem C8_dispatch_order_amended (now : Nat) (eh : EngineHealth) (doc : TaskDoc) :
    (∀ a b : Task, keyLeB a b = true ∨ keyLeB b a = true) ∧
    List.Pairwise (fun a b => keyLeB a b = true) (dispatchCandidates now eh doc) ∧
    (∀ k : Nat × Nat × Str,
      (dispatchCandidates now eh doc).filter (fun t => taskKey t == k) =
        (collectPending now eh doc).filter (fun t => taskKey t == k)) :=
  ⟨keyLeB_total, pairwise_dispatchSort _, fun k => filter_key_dispatchSort k _⟩

/-- Witness for C8: the sortedness and stability facts instantiated on the
concrete two-candidate document (an urgent task created later overtakes a
standard one). -/
theorem C8_dispatch_order_amended_witness :
    List.Pairwise (fun a b => keyLeB a b = true)
      (dispatchCandidates 3 ⟨true, true⟩
        ⟨[{ defaultTask with id := "task-009".toList, sla_tier := some ("urgent".toList),
                             routed_engine := some ("claude".toList) },
          { defaultTask with id := "task-008".toList,
                             routed_engine := some ("claude".toList) }], []⟩) ∧
    keyLeB defaultTask defaultTask = true :=
  ⟨(C8_dispatch_order_amended 3 ⟨true, true⟩
    ⟨[{ defaultTask with id := "task-009".toList, sla_tier := some ("urgent".toList),
                         routed_engine := some ("claude".toList) },
      { defaultTask with id := "task-008".toList,
                         routed_engine := some ("claude".toList) }], []⟩).2.1,
   ((C8_dispatch_order_amended 3 ⟨true, true⟩
      ⟨[{ defaultTask with id := "task-009".toList, sla_tier := some ("urgent".toList),
                           routed_engine := some ("claude".toList) },
        { defaultTask with id := "task-008".toList,
                           routed_engine := some ("claude".toList) }], []⟩).1 defaultTask
      defaultTask).elim id id⟩

end AgentKanban
